import Mathlib

set_option maxRecDepth 8000

/-!
# Verification of the Telegram webhook batch coalescer

Shallow embedding of `handleTelegramMessage` (the batched-upload coalescing
and deduplication engine of this repository) together with its deferred
finalize task, over an explicit key-value store state.

Conventions of the embedding:
* the key-value store is an association list in insertion order; `list` with
  a key namespace returns the matching keys in store order;
* values held under the configuration keys are modelled as already-parsed
  records (the JSON round-trip of the adapter is abstracted away);
* machine floats appear only as `(fileSize/1024/1024).toFixed(2)` and as the
  finalize sum of such two-decimal values; both are modelled exactly in
  hundredths of a megabyte (`mbCents`), which agrees with the double
  computation for all realistic byte counts;
* external collaborators (identity allocator, notification client, the put
  failure of the store adapter) are oracles supplied in `Env`;
* the notification client (`TelegramAPI`, a file of this repository that is
  not part of the sources given) is modelled from the spec where needed.
-/

namespace CFImgBed

/-- One element of a Telegram `message.photo` array (part_000 lines 76-81). -/
structure PhotoSize where
  file_id : String
  file_size : Nat
deriving DecidableEq, Repr

/-- The `message.document` object (part_000 lines 87-91). -/
structure DocumentInfo where
  file_id : String
  file_size : Nat
  file_name : Option String
  mime_type : Option String
deriving DecidableEq, Repr

/-- The inbound Telegram message as consumed by the handler. -/
structure Message where
  chat_id : String
  text : Option String
  photo : Option (List PhotoSize)
  document : Option DocumentInfo
  media_group_id : Option String
deriving DecidableEq, Repr

/-- The Telegram update object; the handler only reads `update.message`. -/
structure Update where
  message : Option Message
deriving DecidableEq, Repr

/-- The webhook system configuration parsed from
`manage@sysConfig@telegram@webhook` (part_000 lines 98-107). -/
structure WebhookCfg where
  enabled : Bool
  targetChannel : String
deriving DecidableEq, Repr

/-- One Telegram channel of the upload configuration (part_000 lines 8-18). -/
structure Channel where
  name : String
  botToken : String
  proxyUrl : String
deriving DecidableEq, Repr

/-- The BatchState record stored under `telegram_batch_<gid>`
(part_000 lines 199-202). -/
structure BatchInfo where
  messageId : Option Nat
  firstFileId : Option String
deriving DecidableEq, Repr

/-- The StoredFile metadata record (part_000 lines 143-163). `FileSize` holds
the numeric value of `(fileSize/1024/1024).toFixed(2)` in hundredths of a
megabyte. -/
structure FileMetadata where
  Channel : String
  ChannelName : String
  TgFileId : String
  TgChatId : String
  TgBotToken : String
  FileName : String
  FileType : String
  FileSize : Nat
  UploadIP : String
  TimeStamp : Nat
  Label : String
  Directory : String
  Tags : List String
  MediaGroupId : Option String
  TgProxyUrl : Option String
deriving DecidableEq, Repr

/-- A value held in the key-value store. Configuration keys hold their parsed
configuration, the BatchState key holds its parsed record; plain strings cover
the StoredFile value (`""`) and the batch-index value (the storage key). -/
inductive StoreVal where
  | str (s : String)
  | webhookCfg (c : WebhookCfg)
  | uploadCfg (chs : List Channel)
  | batch (b : BatchInfo)
deriving DecidableEq, Repr

/-- Per-key metadata as returned by `getWithMetadata`: none, a StoredFile
record, or the batch-index `{size}` record (whose `size` field, when present,
is the stored two-decimal megabyte string, modelled in hundredths). -/
inductive EntryMeta where
  | noMeta
  | file (m : FileMetadata)
  | batchIdx (size : Option Nat)
deriving DecidableEq, Repr

/-- One record of the store: value, metadata, optional TTL in seconds. -/
structure DBEntry where
  value : StoreVal
  meta : EntryMeta
  ttl : Option Nat
deriving DecidableEq, Repr

/-- The key-value store, in insertion order, one entry per key. -/
abbrev DB := List (String × DBEntry)

/-- Adapter operation `db.get k`: first entry under `k`. -/
def dbGet : DB → String → Option DBEntry
  | [], _ => none
  | (k1, e) :: rest, k => if k1 = k then some e else dbGet rest k

/-- Adapter operation `db.put k e`: replace the entry under `k`, else append. -/
def dbPut : DB → String → DBEntry → DB
  | [], k, e => [(k, e)]
  | (k1, e1) :: rest, k, e => if k1 = k then (k, e) :: rest else (k1, e1) :: dbPut rest k e

/-- Adapter operation `db.delete k`. -/
def dbDel : DB → String → DB
  | [], _ => []
  | (k1, e1) :: rest, k => if k1 = k then dbDel rest k else (k1, e1) :: dbDel rest k

/-- Character-list prefix test. -/
def isPreOf : List Char → List Char → Bool
  | [], _ => true
  | _ :: _, [] => false
  | c :: cs, d :: ds => (c == d) && isPreOf cs ds

/-- Model of JavaScript `String.prototype.startsWith` and of the adapter's
key-namespace match of `list`. -/
def strStartsWith (s p : String) : Bool := isPreOf p.data s.data

/-- Adapter operation `db.list (p)`: the keys under namespace `p`, in store
order. -/
def dbList : DB → String → List String
  | [], _ => []
  | (k1, _) :: rest, p => if strStartsWith k1 p then k1 :: dbList rest p else dbList rest p

/-- The keys of the store. -/
def keys (db : DB) : List String := db.map Prod.fst

/-- One store operation, for the observable trace of a run. -/
inductive DbOp where
  | get (k : String)
  | put (k : String)
  | del (k : String)
  | listPre (p : String)
  | getWithMeta (k : String)
deriving DecidableEq, Repr

/-- Is the operation a store write (a successful put or delete)? -/
def isWriteOp : DbOp → Bool
  | .put _ => true
  | .del _ => true
  | _ => false

/-- The writes of an operation trace. -/
def writesOf (ops : List DbOp) : List DbOp := ops.filter isWriteOp

/-- One outbound `sendMessage` call, abstracted to its content. -/
inductive SendCall where
  | dirQuery (chatId currentDir : String)
  | dirSet (chatId dirName : String)
  | batchReceiving (chatId : String)
  | singleSaved (chatId fullId : String) (sizeCents : Nat)
deriving DecidableEq, Repr

/-- One `editMessageText` call of the finalize task, abstracted to its
content: final count, total size in hundredths of a megabyte, first file. -/
structure EditCall where
  chatId : String
  messageId : Option Nat
  finalCount : Nat
  finalTotalCents : Nat
  firstFileId : Option String
deriving DecidableEq, Repr

/-- Outcome of one `sendMessage` call of the notification client: a response
with `ok` and `result.message_id`, a response with `ok` false, or a thrown
error (caught by the handler where the source wraps the call in try). -/
inductive SendOutcome where
  | ok (message_id : Nat)
  | notOk
  | throws
deriving DecidableEq, Repr

/-- The oracles of one handler invocation: the identity allocator
(`buildUniqueFileId`, applied to the upload folder and the desired name), the
single notification send of the invocation, per-key success of store puts,
the message of a put failure, and the clock. -/
structure Env where
  allocate : String → String → String
  send : SendOutcome
  putOk : String → Bool
  putErrMsg : String
  now : Nat
  today : String

/-- The result object returned by `handleTelegramMessage`. Optional fields
are `none` when the source's returned object does not carry them. -/
structure HandlerResult where
  success : Bool
  reason : Option String := none
  fileId : Option String := none
  metadata : Option FileMetadata := none
  mediaGroupId : Option (Option String) := none
  existingFileId : Option String := none
  error : Option String := none
deriving DecidableEq, Repr

/-- A run either returns a result or throws out of the handler. -/
inductive Outcome where
  | ret (r : HandlerResult)
  | thrown
deriving DecidableEq, Repr

/-- Observable effects of one handler invocation besides the store: the store
operation trace, notification sends, identity allocations (folder, name),
`endUpload` calls, and the media groups for which a deferred finalize task was
scheduled via `context.waitUntil`. -/
structure Trace where
  ops : List DbOp := []
  sends : List SendCall := []
  allocs : List (String × String) := []
  endUploads : List String := []
  scheduled : List String := []
deriving DecidableEq, Repr

/-- Result, final store, trace of one invocation. -/
structure RunOut where
  out : Outcome
  db : DB
  tr : Trace

/-! ## Store keys and small helpers of the source -/

/-- Key of the webhook configuration (part_000 lines 43, 98). -/
def webhookKey : String := "manage@sysConfig@telegram@webhook"

/-- Key of the upload configuration (part_000 line 9). -/
def uploadCfgKey : String := "manage@sysConfig@upload"

/-- Per-chat upload directory key (part_000 lines 57, 62, 120). -/
def dirKey (chatId : String) : String := "telegram_upload_dir_" ++ chatId

/-- BatchState key of a media group (part_000 line 196). -/
def batchKey (gid : String) : String := "telegram_batch_" ++ gid

/-- Key namespace of the batch index of a media group (part_000 line 236). -/
def batchIdxPre (gid : String) : String := "batch_index_" ++ gid ++ "_"

/-- Batch-index key of one file of a media group (part_000 line 174). -/
def batchIndexKey (gid fullId : String) : String :=
  "batch_index_" ++ gid ++ "_" ++ fullId

/-- JavaScript truthiness of an optional string (`undefined`, `null` and `""`
are falsy). -/
def truthyOptStr : Option String → Bool
  | some s => decide (s ≠ "")
  | none => false

/-- JavaScript truthiness of an optional number (`undefined`, `null` and `0`
are falsy). -/
def truthyOptNat : Option Nat → Bool
  | some n => decide (n ≠ 0)
  | none => false

/-- Projection of a stored value to a plain string. -/
def getStr : StoreVal → Option String
  | .str s => some s
  | _ => none

/-- Projection of a stored value to the parsed webhook configuration; the
empty string and non-configuration garbage read as "not configured"
(part_000 lines 98-104, `JSON.parse` abstracted). -/
def asWebhookCfg : StoreVal → Option WebhookCfg
  | .webhookCfg c => some c
  | _ => none

/-- Projection of a stored value to the parsed upload channels. -/
def asUploadCfg : StoreVal → Option (List Channel)
  | .uploadCfg chs => some chs
  | _ => none

/-- Projection of a stored value to a parsed BatchState record. -/
def asBatch : StoreVal → Option BatchInfo
  | .batch b => some b
  | _ => none

/-- The `TgFileId` of an entry's metadata, as read by the dedup scan
(`fileData.metadata?.TgFileId`, part_000 line 113). -/
def metaTgFileId : EntryMeta → Option String
  | .file m => some m.TgFileId
  | _ => none

/-- The `size` of an entry's metadata, as read by the finalize sum
(`parseFloat(fileData.metadata?.size || 0)`, part_000 line 241): zero when
the entry or its size metadata is missing. -/
def entrySize (e : DBEntry) : Nat :=
  match e.meta with
  | .batchIdx (some c) => c
  | _ => 0

/-- Size read through a `getWithMetadata` result. -/
def sizeOfGet : Option DBEntry → Nat
  | some e => entrySize e
  | none => 0

/-- The numeric value of `(bytes/1024/1024).toFixed(2)` in hundredths of a
megabyte (part_000 line 151): the double `bytes/2^20` is exact for realistic
byte counts, and `toFixed(2)` rounds to the nearest hundredth, ties toward
the larger value. -/
def mbCents (bytes : Nat) : Nat := (bytes * 100 + 524288) / 1048576

/-- Characters of the storage key up to and including its last `/`, empty
when it has none: `fullId.substring(0, fullId.lastIndexOf('/') + 1)`
(part_000 lines 139-140). -/
def dirOfAux : List Char → List Char
  | [] => []
  | c :: cs =>
    if '/' ∈ cs then c :: dirOfAux cs
    else if c = '/' then ['/'] else []

/-- The directory recomputed from the actually-allocated key
(part_000 lines 138-140). -/
def actualDirectory (fullId : String) : String := ⟨dirOfAux fullId.data⟩

/-! ## Translation of `handleTelegramMessage` (part_000 lines 26-272) -/

/-- Outcome of the file extraction of lines 69-95: not an image, a thrown
`reduce` on an empty photo array, or the chosen file identifier, size,
name and declared type. -/
inductive ExtractOutcome where
  | notImage
  | crash
  | info (fileId : String) (fileSize : Nat) (fileName fileType : String)
deriving DecidableEq, Repr

/-- The reduce `message.photo.reduce((prev, cur) => prev.file_size >
cur.file_size ? prev : cur)` (part_000 lines 77-79); `none` models the
`TypeError` thrown on an empty array. -/
def largestPhoto : List PhotoSize → Option PhotoSize
  | [] => none
  | p :: ps =>
    some (ps.foldl (fun prev cur => if prev.file_size > cur.file_size then prev else cur) p)

/-- The name `message.document.file_name || document_<now>.jpg`
(part_000 line 90). -/
def docName (env : Env) (d : DocumentInfo) : String :=
  match d.file_name with
  | some n => if n = "" then "document_" ++ toString env.now ++ ".jpg" else n
  | none => "document_" ++ toString env.now ++ ".jpg"

/-- File extraction, part_000 lines 69-95. An empty photo array is truthy in
JavaScript, so it reaches the reduce and throws. -/
def extractFile (env : Env) (msg : Message) : ExtractOutcome :=
  match msg.photo with
  | some ps =>
    match largestPhoto ps with
    | none => .crash
    | some lp =>
      .info lp.file_id lp.file_size
        ("photo_" ++ env.today ++ "_" ++ toString env.now ++ ".jpg") "image/jpeg"
  | none =>
    match msg.document with
    | some d =>
      match d.mime_type with
      | some m =>
        if strStartsWith m "image/" then
          .info d.file_id d.file_size (docName env d) (if m = "" then "image/jpeg" else m)
        else .notImage
      | none => .notImage
    | none => .notImage

/-- Lines 98-104: read and parse the webhook configuration. -/
def getWebhookConfig (db : DB) : Option WebhookCfg :=
  (dbGet db webhookKey).bind (fun e => asWebhookCfg e.value)

/-- Translation of `getTelegramChannel` (part_000 lines 8-18). -/
def getTelegramChannel (db : DB) (channelName : String) : Option Channel :=
  ((dbGet db uploadCfgKey).bind (fun e => asUploadCfg e.value)).bind
    (fun chs => chs.find? (fun ch => ch.name == channelName))

/-- Line 120: `await db.get(telegram_upload_dir_<chat>) || ''`. -/
def getUploadDir (db : DB) (chatId : String) : String :=
  ((dbGet db (dirKey chatId)).bind (fun e => getStr e.value)).getD ""

/-- The dedup scan of lines 110-117 over the listed keys: `getWithMetadata`
each key in order and stop at the first whose metadata records the origin
file identifier. Returns the hit and the read trace of the scan. -/
def scanKeys (db : DB) (fid : String) : List String → Option String × List DbOp
  | [] => (none, [])
  | k :: ks =>
    match dbGet db k with
    | some e =>
      if metaTgFileId e.meta = some fid then (some k, [DbOp.getWithMeta k])
      else
        let r := scanKeys db fid ks
        (r.1, DbOp.getWithMeta k :: r.2)
    | none =>
      let r := scanKeys db fid ks
      (r.1, DbOp.getWithMeta k :: r.2)

/-- The metadata record built at part_000 lines 143-163. `FileType` is the
literal `"image/jpeg"` of line 150 (the extracted declared type is unused
there), `Directory` is recomputed from the allocated key, `MediaGroupId` is
`message.media_group_id || null`. -/
def buildMeta (env : Env) (cfg : WebhookCfg) (ch : Channel) (chatId fileId fileName : String)
    (fileSize : Nat) (mgid : Option String) (fullId : String) : FileMetadata where
  Channel := "TelegramNew"
  ChannelName := if ch.name = "" then cfg.targetChannel else ch.name
  TgFileId := fileId
  TgChatId := chatId
  TgBotToken := ch.botToken
  FileName := fileName
  FileType := "image/jpeg"
  FileSize := mbCents fileSize
  UploadIP := "Bot"
  TimeStamp := env.now
  Label := "None"
  Directory := actualDirectory fullId
  Tags := []
  MediaGroupId := if truthyOptStr mgid then mgid else none
  TgProxyUrl := if ch.proxyUrl = "" then none else some ch.proxyUrl

/-- The BatchState read of part_000 lines 196-202 (`JSON.parse` of the raw
value; an absent or falsy value yields the fresh record at the call site). -/
def batchStateOf (db : DB) (gid : String) : Option BatchInfo :=
  (dbGet db (batchKey gid)).bind (fun e => asBatch e.value)

/-- Lines 195-257 with a truthy media-group identifier: read BatchState,
first-file and first-send bookkeeping, rewrite it with a 60 second TTL
(line 223, not guarded by try: a put failure throws out of the handler), and
schedule the deferred finalize task. `dbW` and `opsW` carry the store and
trace after the primary writes and `endUpload`. -/
def groupedTail (env : Env) (dbW : DB) (opsW : List DbOp) (allocs : List (String × String))
    (chatId gid fullId : String) (md : FileMetadata) (mgidField : Option String) : RunOut :=
  let bkey := batchKey gid
  let b0 := (batchStateOf dbW gid).getD { messageId := none, firstFileId := none }
  let b1 := if truthyOptStr b0.firstFileId then b0 else { b0 with firstFileId := some fullId }
  let b2 :=
    if truthyOptNat b1.messageId then b1
    else
      match env.send with
      | .ok mid => { b1 with messageId := some mid }
      | .notOk => b1
      | .throws => b1
  let sends := if truthyOptNat b1.messageId then [] else [SendCall.batchReceiving chatId]
  let ops1 := opsW ++ [DbOp.get bkey]
  if env.putOk bkey = false then
    ⟨.thrown, dbW, { ops := ops1, sends := sends, allocs := allocs, endUploads := [fullId] }⟩
  else
    let db1 := dbPut dbW bkey { value := .batch b2, meta := .noMeta, ttl := some 60 }
    ⟨.ret { success := true, fileId := some fullId, metadata := some md,
            mediaGroupId := some mgidField },
     db1,
     { ops := ops1 ++ [DbOp.put bkey], sends := sends, allocs := allocs,
       endUploads := [fullId], scheduled := [gid] }⟩

/-- Lines 258-264 with a falsy media-group identifier: one immediate
notification send (its failure caught), then the success result. -/
def singleTail (dbW : DB) (opsW : List DbOp) (allocs : List (String × String))
    (chatId fullId : String) (md : FileMetadata) (mgidField : Option String) : RunOut :=
  ⟨.ret { success := true, fileId := some fullId, metadata := some md,
          mediaGroupId := some mgidField },
   dbW,
   { ops := opsW, sends := [SendCall.singleSaved chatId fullId md.FileSize],
     allocs := allocs, endUploads := [fullId] }⟩

/-- The non-command file path, part_000 lines 69-271. -/
def handleFileMessage (env : Env) (db : DB) (msg : Message) : RunOut :=
  let chatId := msg.chat_id
  match extractFile env msg with
  | .crash => ⟨.thrown, db, {}⟩
  | .notImage => ⟨.ret { success := false, reason := some "not_image" }, db, {}⟩
  | .info fileId fileSize fileName _fileType =>
    let ops0 := [DbOp.get webhookKey]
    match getWebhookConfig db with
    | none =>
      ⟨.ret { success := false, reason := some "webhook_not_configured" }, db, { ops := ops0 }⟩
    | some cfg =>
      if cfg.enabled = false ∨ cfg.targetChannel = "" then
        ⟨.ret { success := false, reason := some "webhook_disabled" }, db, { ops := ops0 }⟩
      else
        let scan := scanKeys db fileId (dbList db "")
        let ops1 := ops0 ++ [DbOp.listPre ""] ++ scan.2
        match scan.1 with
        | some k =>
          ⟨.ret { success := false, reason := some "already_saved", existingFileId := some k },
           db, { ops := ops1 }⟩
        | none =>
          let uploadDir := getUploadDir db chatId
          let ops2 := ops1 ++ [DbOp.get (dirKey chatId)]
          match getTelegramChannel db cfg.targetChannel with
          | none =>
            ⟨.ret { success := false, reason := some "channel_not_found" }, db,
             { ops := ops2 ++ [DbOp.get uploadCfgKey] }⟩
          | some ch =>
            let ops3 := ops2 ++ [DbOp.get uploadCfgKey]
            let fullId := env.allocate uploadDir fileName
            let allocs := [(uploadDir, fileName)]
            let md :=
              buildMeta env cfg ch chatId fileId fileName fileSize msg.media_group_id fullId
            if env.putOk fullId = false then
              ⟨.ret { success := false, reason := some "database_error",
                      error := some env.putErrMsg },
               db, { ops := ops3, allocs := allocs }⟩
            else
              let db1 := dbPut db fullId { value := .str "", meta := .file md, ttl := none }
              let ops4 := ops3 ++ [DbOp.put fullId]
              match msg.media_group_id with
              | some gid =>
                if gid = "" then singleTail db1 ops4 allocs chatId fullId md (some "")
                else
                  let bik := batchIndexKey gid fullId
                  if env.putOk bik = false then
                    ⟨.ret { success := false, reason := some "database_error",
                            error := some env.putErrMsg },
                     db1, { ops := ops4, allocs := allocs }⟩
                  else
                    let db2 := dbPut db1 bik
                      { value := .str fullId, meta := .batchIdx (some md.FileSize),
                        ttl := some 3600 }
                    groupedTail env db2 (ops4 ++ [DbOp.put bik]) allocs chatId gid fullId md
                      (some gid)
              | none => singleTail db1 ops4 allocs chatId fullId md none

/-- The whitespace split of `message.text.trim().split(/\s+/)` (part_000
line 39), with spaces standing for whitespace. -/
def cmdParts (t : String) : List String :=
  (t.trim.splitOn " ").filter (fun p => decide (p ≠ ""))

/-- ASCII lowercase of one character. -/
def lowerChar (c : Char) : Char :=
  if 'A' ≤ c ∧ c ≤ 'Z' then Char.ofNat (c.toNat + 32) else c

/-- Model of `String.prototype.toLowerCase` (part_000 line 40). -/
def lowerStr (s : String) : String := ⟨s.data.map lowerChar⟩

/-- Does the message carry the `/dir` command (part_000 lines 38-42)? A text
starting with `/` whose first token is not `/dir` falls through to the file
path. -/
def isDirCommand (msg : Message) : Bool :=
  match msg.text with
  | some t =>
    decide (t ≠ "") && strStartsWith t "/" &&
      decide (lowerStr ((cmdParts t).headD "") = "/dir")
  | none => false

/-- The `/dir` command micro-protocol, part_000 lines 42-66. The sends and
the directory put of this branch are not wrapped in try, so their failures
throw out of the handler. -/
def handleDir (env : Env) (db : DB) (chatId : String) (parts : List String) : RunOut :=
  match getWebhookConfig db with
  | none =>
    ⟨.ret { success := false, reason := some "webhook_not_configured" }, db,
     { ops := [DbOp.get webhookKey] }⟩
  | some cfg =>
    match getTelegramChannel db cfg.targetChannel with
    | none =>
      ⟨.ret { success := false, reason := some "channel_not_found" }, db,
       { ops := [DbOp.get webhookKey, DbOp.get uploadCfgKey] }⟩
    | some _ch =>
      if parts.length < 2 then
        let currentDir :=
          match (dbGet db (dirKey chatId)).bind (fun e => getStr e.value) with
          | some s => if s = "" then "/" else s
          | none => "/"
        let ops1 := [DbOp.get webhookKey, DbOp.get uploadCfgKey, DbOp.get (dirKey chatId)]
        match env.send with
        | .throws => ⟨.thrown, db, { ops := ops1, sends := [SendCall.dirQuery chatId currentDir] }⟩
        | _ =>
          ⟨.ret { success := true, reason := some "command_handled" }, db,
           { ops := ops1, sends := [SendCall.dirQuery chatId currentDir] }⟩
      else
        let dirName := (String.intercalate " " (parts.drop 1)).trim
        if env.putOk (dirKey chatId) = false then
          ⟨.thrown, db, { ops := [DbOp.get webhookKey, DbOp.get uploadCfgKey] }⟩
        else
          let db1 := dbPut db (dirKey chatId) { value := .str dirName, meta := .noMeta, ttl := none }
          let ops1 := [DbOp.get webhookKey, DbOp.get uploadCfgKey, DbOp.put (dirKey chatId)]
          match env.send with
          | .throws => ⟨.thrown, db1, { ops := ops1, sends := [SendCall.dirSet chatId dirName] }⟩
          | _ =>
            ⟨.ret { success := true, reason := some "command_handled" }, db1,
             { ops := ops1, sends := [SendCall.dirSet chatId dirName] }⟩

/-- Translation of `handleTelegramMessage` (part_000 lines 26-272). -/
def handleTelegramMessage (env : Env) (db : DB) (update : Update) : RunOut :=
  match update.message with
  | none => ⟨.ret { success := false, reason := some "no_message" }, db, {}⟩
  | some msg =>
    if isDirCommand msg then handleDir env db msg.chat_id (cmdParts (msg.text.getD ""))
    else handleFileMessage env db msg

/-! ## Translation of the deferred finalize task (part_000 lines 227-257) -/

/-- Per-task oracles of one finalize run: whether the `editMessageText` call
throws (the notification client, modelled from the spec, returns an
`{ok, ...}` response and throws only on transport failure) and whether the
`db.delete` succeeds. -/
structure FinalizeEnv where
  editThrows : Bool
  delOk : Bool
deriving DecidableEq, Repr

/-- Store, edit calls, read/write trace and whether the task found the
BatchState present (and hence performed the recomputation) of one finalize
run. -/
structure FinalizeOut where
  db : DB
  edits : List EditCall
  ops : List DbOp
  didWork : Bool

/-- One deferred finalize task, part_000 lines 230-256: re-read BatchState;
if absent, no-op; else recompute count and total size from the batch index,
edit the notification (recorded with its reported content even when the call
then throws), and delete the BatchState — the edit and the delete share one
try, so a thrown edit skips the delete. A present entry whose value does not
parse as a BatchState record aborts the task with no writes, observably the
no-op. -/
def finalizeTask (fe : FinalizeEnv) (chatId gid : String) (db : DB) : FinalizeOut :=
  match batchStateOf db gid with
  | none => ⟨db, [], [DbOp.get (batchKey gid)], false⟩
  | some b =>
    let p := batchIdxPre gid
    let ks := dbList db p
    let ed : EditCall :=
      { chatId := chatId, messageId := b.messageId, finalCount := ks.length,
        finalTotalCents := (ks.map (fun k => sizeOfGet (dbGet db k))).sum,
        firstFileId := b.firstFileId }
    let ops0 := [DbOp.get (batchKey gid), DbOp.listPre p] ++ ks.map DbOp.getWithMeta
    if fe.editThrows then ⟨db, [ed], ops0, true⟩
    else if fe.delOk then
      ⟨dbDel db (batchKey gid), [ed], ops0 ++ [DbOp.del (batchKey gid)], true⟩
    else ⟨db, [ed], ops0, true⟩

/-- Program counter of one finalize task under interleaving: before the
BatchState re-read of line 230; between that read (which found the record,
parsed to `b`) and the recompute/edit/delete of lines 236-253 — a window in
which the task is suspended at awaited store and notification calls; or
finished. -/
inductive TaskPC where
  | start
  | work (b : BatchInfo)
  | finished (didWork : Bool)
deriving DecidableEq, Repr

/-- One scheduled finalize task: its oracles and its program counter. -/
structure TaskState where
  fe : FinalizeEnv
  pc : TaskPC
deriving DecidableEq, Repr

/-- Shared store plus the scheduled finalize tasks of one group. -/
structure SchedState where
  db : DB
  tasks : List TaskState
  edits : List EditCall
  workCount : Nat

/-- One interleaving step of task `i` of the group's finalize tasks: the
guard read of line 230 is one atomic store read, and the recompute, edit and
delete of lines 236-253 run as the task's next step — so a sibling task's
read can fall between another task's guard read and its delete, as the
suspension points of the source allow. -/
def stepTask (chatId gid : String) (s : SchedState) (i : Nat) : SchedState :=
  match s.tasks.get? i with
  | none => s
  | some t =>
    match t.pc with
    | .finished _ => s
    | .start =>
      match batchStateOf s.db gid with
      | none =>
        { s with
          tasks := s.tasks.set i { t with pc := TaskPC.finished false } }
      | some b =>
        { s with
          tasks := s.tasks.set i { t with pc := TaskPC.work b } }
    | .work b =>
      let ks := dbList s.db (batchIdxPre gid)
      let ed : EditCall :=
        { chatId := chatId, messageId := b.messageId, finalCount := ks.length,
          finalTotalCents := (ks.map (fun k => sizeOfGet (dbGet s.db k))).sum,
          firstFileId := b.firstFileId }
      if t.fe.editThrows then
        { s with
          tasks := s.tasks.set i { t with pc := TaskPC.finished true }
          edits := s.edits ++ [ed]
          workCount := s.workCount + 1 }
      else if t.fe.delOk then
        { db := dbDel s.db (batchKey gid)
          tasks := s.tasks.set i { t with pc := TaskPC.finished true }
          edits := s.edits ++ [ed]
          workCount := s.workCount + 1 }
      else
        { s with
          tasks := s.tasks.set i { t with pc := TaskPC.finished true }
          edits := s.edits ++ [ed]
          workCount := s.workCount + 1 }

/-- Run the finalize tasks of one group under an explicit interleaving: the
schedule names, step by step, which task advances. -/
def runSched (chatId gid : String) (sched : List Nat) (s : SchedState) : SchedState :=
  sched.foldl (stepTask chatId gid) s

/-- Aggregate of a sequence of finalize runs. -/
structure MultiOut where
  db : DB
  workCount : Nat
  edits : List EditCall

/-- Run the scheduled finalize tasks of one group, one after the other, in
the order they wake. -/
def runFinalizes (chatId gid : String) : List FinalizeEnv → DB → MultiOut
  | [], db => ⟨db, 0, []⟩
  | fe :: rest, db =>
    let o := finalizeTask fe chatId gid db
    let m := runFinalizes chatId gid rest o.db
    ⟨m.db, (if o.didWork then 1 else 0) + m.workCount, o.edits ++ m.edits⟩

/-- The entries of the store under the batch-index namespace of a group. -/
def batchEntries (db : DB) (gid : String) : List (String × DBEntry) :=
  db.filter (fun p => strStartsWith p.1 (batchIdxPre gid))

/-! ## Store lemmas -/

theorem dbGet_dbPut_self (db : DB) (k : String) (e : DBEntry) :
    dbGet (dbPut db k e) k = some e := by
  induction db with
  | nil => simp [dbPut, dbGet]
  | cons hd tl ih =>
    obtain ⟨k1, e1⟩ := hd
    by_cases h : k1 = k
    · subst h; simp [dbPut, dbGet]
    · simp [dbPut, dbGet, h, ih]

theorem dbGet_dbPut_ne (db : DB) (k1 k : String) (e : DBEntry) (h : k1 ≠ k) :
    dbGet (dbPut db k1 e) k = dbGet db k := by
  induction db with
  | nil => simp [dbPut, dbGet, h]
  | cons hd tl ih =>
    obtain ⟨k2, e2⟩ := hd
    by_cases h2 : k2 = k1
    · subst h2; simp [dbPut, dbGet, h]
    · by_cases h3 : k2 = k
      · subst h3; simp [dbPut, dbGet, h2]
      · simp [dbPut, dbGet, h2, h3, ih]

theorem dbGet_dbDel_self (db : DB) (k : String) : dbGet (dbDel db k) k = none := by
  induction db with
  | nil => simp [dbDel, dbGet]
  | cons hd tl ih =>
    obtain ⟨k1, e1⟩ := hd
    by_cases h : k1 = k
    · subst h; simp [dbDel, ih]
    · simp [dbDel, dbGet, h, ih]

theorem dbGet_mem (db : DB) (k : String) (e : DBEntry) (h : dbGet db k = some e) :
    (k, e) ∈ db := by
  induction db with
  | nil => simp [dbGet] at h
  | cons hd tl ih =>
    obtain ⟨k1, e1⟩ := hd
    by_cases h1 : k1 = k
    · subst h1
      simp [dbGet] at h
      simp [h]
    · simp [dbGet, h1] at h
      exact List.mem_cons_of_mem _ (ih h)

theorem keys_cons (k1 : String) (e1 : DBEntry) (tl : DB) :
    keys ((k1, e1) :: tl) = k1 :: keys tl := rfl

theorem keys_dbPut (db : DB) (k : String) (e : DBEntry) :
    keys (dbPut db k e) = if k ∈ keys db then keys db else keys db ++ [k] := by
  induction db with
  | nil => simp [dbPut, keys]
  | cons hd tl ih =>
    obtain ⟨k1, e1⟩ := hd
    by_cases h : k1 = k
    · subst h; simp [dbPut, keys]
    · rw [keys_cons]
      simp only [dbPut, if_neg h]
      by_cases hm : k ∈ keys tl
      · rw [if_pos (List.mem_cons_of_mem _ hm), keys_cons, ih, if_pos hm]
      · have hnotc : k ∉ k1 :: keys tl := by
          simp only [List.mem_cons]
          rintro (rfl | hc)
          · exact h rfl
          · exact hm hc
        rw [if_neg hnotc, keys_cons, ih, if_neg hm]
        rfl

theorem nodup_keys_dbPut (db : DB) (k : String) (e : DBEntry)
    (h : (keys db).Nodup) : (keys (dbPut db k e)).Nodup := by
  rw [keys_dbPut]
  by_cases hm : k ∈ keys db
  · simpa [hm] using h
  · simp only [if_neg hm]
    simpa [List.nodup_append, hm] using h

theorem count_le_one_of_nodup (l : List String) (h : l.Nodup) (k : String) :
    l.count k ≤ 1 :=
  List.nodup_iff_count_le_one.mp h k

theorem mem_keys_of_mem_dbList (db : DB) (p k : String) (h : k ∈ dbList db p) :
    k ∈ keys db := by
  induction db with
  | nil => simp [dbList] at h
  | cons hd tl ih =>
    obtain ⟨k1, e1⟩ := hd
    rw [keys_cons]
    by_cases hc : strStartsWith k1 p
    · rw [dbList, if_pos hc] at h
      rcases List.mem_cons.mp h with h | h
      · simp [h]
      · exact List.mem_cons_of_mem _ (ih h)
    · rw [dbList, if_neg hc] at h
      exact List.mem_cons_of_mem _ (ih h)

theorem strStartsWith_empty (k : String) : strStartsWith k "" = true := by
  have hd : ("" : String).data = [] := rfl
  rw [strStartsWith, hd]
  rfl

theorem strStartsWith_append_self (p t : String) :
    strStartsWith (p ++ t) p = true := by
  have hd : (p ++ t).data = p.data ++ t.data := rfl
  rw [strStartsWith, hd]
  generalize p.data = l
  induction l with
  | nil => rfl
  | cons c cs ih => simp [isPreOf, ih]

theorem dbList_nil_eq_keys (db : DB) : dbList db "" = keys db := by
  induction db with
  | nil => rfl
  | cons hd tl ih =>
    obtain ⟨k1, e1⟩ := hd
    rw [keys_cons, dbList, if_pos (strStartsWith_empty k1), ih]

theorem mem_dbList_of_dbGet (db : DB) (k : String) (e : DBEntry)
    (h : dbGet db k = some e) : k ∈ dbList db "" := by
  rw [dbList_nil_eq_keys]
  exact List.mem_map_of_mem Prod.fst (dbGet_mem db k e h)

/-! ## Dedup scan lemmas -/

theorem scanKeys_cons_none (db : DB) (fid k : String) (ks : List String)
    (hg : dbGet db k = none) :
    scanKeys db fid (k :: ks) =
      ((scanKeys db fid ks).1, DbOp.getWithMeta k :: (scanKeys db fid ks).2) := by
  simp [scanKeys, hg]

theorem scanKeys_cons_miss (db : DB) (fid k : String) (ks : List String)
    (e : DBEntry) (hg : dbGet db k = some e) (hm : metaTgFileId e.meta ≠ some fid) :
    scanKeys db fid (k :: ks) =
      ((scanKeys db fid ks).1, DbOp.getWithMeta k :: (scanKeys db fid ks).2) := by
  simp [scanKeys, hg, hm]

theorem scanKeys_cons_hit (db : DB) (fid k : String) (ks : List String)
    (e : DBEntry) (hg : dbGet db k = some e) (hm : metaTgFileId e.meta = some fid) :
    scanKeys db fid (k :: ks) = (some k, [DbOp.getWithMeta k]) := by
  simp [scanKeys, hg, hm]

theorem scanKeys_none (db : DB) (fid : String) (ks : List String)
    (h : ∀ q ∈ db, metaTgFileId q.2.meta ≠ some fid) :
    (scanKeys db fid ks).1 = none := by
  induction ks with
  | nil => rfl
  | cons k rest ih =>
    cases hg : dbGet db k with
    | none => rw [scanKeys_cons_none db fid k rest hg]; exact ih
    | some e =>
      have hne := h (k, e) (dbGet_mem db k e hg)
      rw [scanKeys_cons_miss db fid k rest e hg hne]
      exact ih

theorem scanKeys_some (db : DB) (fid : String) (ks : List String)
    (k : String) (e : DBEntry) (hk : k ∈ ks) (hg : dbGet db k = some e)
    (hm : metaTgFileId e.meta = some fid) :
    ∃ k0, (scanKeys db fid ks).1 = some k0 := by
  induction ks with
  | nil => simp at hk
  | cons k1 rest ih =>
    cases hg1 : dbGet db k1 with
    | none =>
      rw [scanKeys_cons_none db fid k1 rest hg1]
      rcases List.mem_cons.mp hk with h | h
      · subst h; rw [hg1] at hg; cases hg
      · exact ih h
    | some e1 =>
      by_cases hmatch : metaTgFileId e1.meta = some fid
      · exact ⟨k1, by rw [scanKeys_cons_hit db fid k1 rest e1 hg1 hmatch]⟩
      · rw [scanKeys_cons_miss db fid k1 rest e1 hg1 hmatch]
        rcases List.mem_cons.mp hk with h | h
        · subst h; rw [hg1] at hg; cases hg; exact absurd hm hmatch
        · exact ih h

theorem scanKeys_ops_reads (db : DB) (fid : String) (ks : List String) :
    ∀ op ∈ (scanKeys db fid ks).2, ∃ k, op = DbOp.getWithMeta k := by
  induction ks with
  | nil => simp [scanKeys]
  | cons k rest ih =>
    intro op hop
    cases hg : dbGet db k with
    | none =>
      rw [scanKeys_cons_none db fid k rest hg] at hop
      rcases List.mem_cons.mp hop with h | h
      · exact ⟨k, h⟩
      · exact ih op h
    | some e =>
      by_cases hmatch : metaTgFileId e.meta = some fid
      · rw [scanKeys_cons_hit db fid k rest e hg hmatch] at hop
        rcases List.mem_cons.mp hop with h | h
        · exact ⟨k, h⟩
        · simp at h
      · rw [scanKeys_cons_miss db fid k rest e hg hmatch] at hop
        rcases List.mem_cons.mp hop with h | h
        · exact ⟨k, h⟩
        · exact ih op h

theorem writesOf_scanKeys (db : DB) (fid : String) (ks : List String) :
    writesOf (scanKeys db fid ks).2 = [] := by
  rw [writesOf, List.filter_eq_nil_iff]
  intro op hop
  obtain ⟨k, rfl⟩ := scanKeys_ops_reads db fid ks op hop
  simp [isWriteOp]

/-! ## Directory characterization -/

theorem map_congr_mem {α β : Type} (l : List α) (f g : α → β)
    (h : ∀ a ∈ l, f a = g a) : l.map f = l.map g := by
  induction l with
  | nil => rfl
  | cons a t ih =>
    rw [List.map_cons, List.map_cons, h a (List.mem_cons_self a t),
      ih (fun x hx => h x (List.mem_cons_of_mem a hx))]

theorem dirOfAux_spec (cs : List Char) :
    ∃ rest, cs = dirOfAux cs ++ rest ∧ '/' ∉ rest
      ∧ ('/' ∈ cs → ∃ pre, dirOfAux cs = pre ++ ['/'])
      ∧ ('/' ∉ cs → dirOfAux cs = []) := by
  induction cs with
  | nil => exact ⟨[], rfl, by simp, fun h => absurd h (by simp), fun _ => rfl⟩
  | cons c cs ih =>
    obtain ⟨rest, hsplit, hnr, hslash, hnone⟩ := ih
    by_cases hmem : '/' ∈ cs
    · refine ⟨rest, ?_, hnr, ?_, ?_⟩
      · simp only [dirOfAux, if_pos hmem, List.cons_append]
        rw [← hsplit]
      · intro _
        obtain ⟨pre, hp⟩ := hslash hmem
        exact ⟨c :: pre, by simp only [dirOfAux, if_pos hmem, hp, List.cons_append]⟩
      · intro hno
        exact absurd (List.mem_cons_of_mem c hmem) hno
    · by_cases hc : c = '/'
      · subst hc
        simp only [dirOfAux, if_neg hmem, if_pos rfl]
        refine ⟨cs, rfl, hmem, fun _ => ⟨[], rfl⟩, ?_⟩
        intro hno
        exact absurd (List.mem_cons_self _ _) hno
      · simp only [dirOfAux, if_neg hmem, if_neg hc]
        refine ⟨c :: cs, rfl, ?_, ?_, fun _ => by simp⟩
        · intro hin
          rcases List.mem_cons.mp hin with h | h
          · exact hc h.symm
          · exact hmem h
        · intro hin
          rcases List.mem_cons.mp hin with h | h
          · exact absurd h.symm hc
          · exact absurd h hmem

/-! ## The largest-photo fold -/

/-- The reduce step of part_000 lines 77-79. -/
def photoMax (prev cur : PhotoSize) : PhotoSize :=
  if prev.file_size > cur.file_size then prev else cur

theorem largestPhoto_cons (p : PhotoSize) (ps : List PhotoSize) :
    largestPhoto (p :: ps) = some (ps.foldl photoMax p) := rfl

theorem photoMax_left_le (a x : PhotoSize) : a.file_size ≤ (photoMax a x).file_size := by
  rw [photoMax]
  by_cases h : a.file_size > x.file_size
  · rw [if_pos h]
  · rw [if_neg h]; omega

theorem photoMax_right_le (a x : PhotoSize) : x.file_size ≤ (photoMax a x).file_size := by
  rw [photoMax]
  by_cases h : a.file_size > x.file_size
  · rw [if_pos h]; omega
  · rw [if_neg h]

theorem foldl_photoMax_spec (l : List PhotoSize) (a : PhotoSize) :
    (l.foldl photoMax a = a ∧ ∀ q ∈ l, q.file_size < a.file_size)
    ∨ (∃ i : Fin l.length,
        l.foldl photoMax a = l.get i
        ∧ a.file_size ≤ (l.get i).file_size
        ∧ (∀ q ∈ l, q.file_size ≤ (l.get i).file_size)
        ∧ ∀ j : Fin l.length, i.1 < j.1 → (l.get j).file_size < (l.get i).file_size) := by
  induction l generalizing a with
  | nil => exact Or.inl ⟨rfl, by simp⟩
  | cons x xs ih =>
    rw [List.foldl_cons]
    rcases ih (photoMax a x) with ⟨heq, hlt⟩ | ⟨i, heq, hge, hall, hlast⟩
    · by_cases hax : a.file_size > x.file_size
      · left
        have hpm : photoMax a x = a := if_pos hax
        rw [hpm] at heq hlt ⊢
        refine ⟨heq, ?_⟩
        intro q hq
        rcases List.mem_cons.mp hq with hqx | hq
        · rw [hqx]; exact hax
        · exact hlt q hq
      · right
        have hpm : photoMax a x = x := if_neg hax
        rw [hpm] at heq hlt ⊢
        have hax2 : a.file_size ≤ x.file_size := by omega
        refine ⟨⟨0, by simp⟩, ?_, ?_, ?_, ?_⟩
        · simpa using heq
        · simpa using hax2
        · intro q hq
          rcases List.mem_cons.mp hq with hqx | hq
          · rw [hqx]; simp
          · simpa using le_of_lt (hlt q hq)
        · intro j hj
          obtain ⟨jv, hjlt⟩ := j
          cases jv with
          | zero => simp at hj
          | succ n =>
            have hn : n < xs.length := by
              simp only [List.length_cons] at hjlt; omega
            simp only [List.get_cons_succ, List.get_cons_zero]
            exact hlt _ (List.get_mem xs n hn)
    · right
      have hilt : i.1 + 1 < (x :: xs).length := by
        simp only [List.length_cons]; omega
      refine ⟨⟨i.1 + 1, hilt⟩, ?_, ?_, ?_, ?_⟩
      · rw [List.get_cons_succ, heq]
      · rw [List.get_cons_succ]
        refine le_trans (photoMax_left_le a x) ?_
        have : xs.get ⟨i.1, i.2⟩ = xs.get i := by congr
        rw [this]; exact hge
      · intro q hq
        rw [List.get_cons_succ]
        have hgi : xs.get ⟨i.1, i.2⟩ = xs.get i := by congr
        rw [hgi]
        rcases List.mem_cons.mp hq with hqx | hq
        · rw [hqx]; exact le_trans (photoMax_right_le a x) hge
        · exact hall q hq
      · intro j hj
        obtain ⟨jv, hjlt⟩ := j
        cases jv with
        | zero => simp at hj
        | succ n =>
          have hn : n < xs.length := by
            simp only [List.length_cons] at hjlt; omega
          simp only [List.get_cons_succ]
          have hgi : xs.get ⟨i.1, i.2⟩ = xs.get i := by congr
          rw [hgi]
          exact hlast ⟨n, hn⟩ (Nat.lt_of_succ_lt_succ hj)

/-! ## Batch-index recomputation lemmas -/

theorem dbList_eq_map_filter (db : DB) (p : String) :
    dbList db p = (db.filter (fun q => strStartsWith q.1 p)).map Prod.fst := by
  induction db with
  | nil => rfl
  | cons hd tl ih =>
    obtain ⟨k1, e1⟩ := hd
    by_cases hc : strStartsWith k1 p
    · rw [dbList, if_pos hc, List.filter_cons_of_pos (by exact hc), List.map_cons, ih]
    · rw [dbList, if_neg hc, List.filter_cons_of_neg (by simpa using hc), ih]

theorem map_lookup_eq_filter (db : DB) (p : String) (h : (keys db).Nodup) :
    (dbList db p).map (fun k => sizeOfGet (dbGet db k))
      = (db.filter (fun q => strStartsWith q.1 p)).map (fun q => entrySize q.2) := by
  induction db with
  | nil => rfl
  | cons hd tl ih =>
    obtain ⟨k1, e1⟩ := hd
    rw [keys_cons] at h
    have h1 : k1 ∉ keys tl := (List.nodup_cons.mp h).1
    have h2 := (List.nodup_cons.mp h).2
    have hcongr : ∀ k ∈ dbList tl p,
        sizeOfGet (dbGet ((k1, e1) :: tl) k) = sizeOfGet (dbGet tl k) := by
      intro k hk
      have hne : k1 ≠ k :=
        fun hh => h1 (hh ▸ mem_keys_of_mem_dbList tl p k hk)
      rw [dbGet, if_neg hne]
    by_cases hc : strStartsWith k1 p
    · rw [dbList, if_pos hc, List.filter_cons_of_pos (by exact hc),
        List.map_cons, List.map_cons]
      have hhd : sizeOfGet (dbGet ((k1, e1) :: tl) k1) = entrySize e1 := by
        rw [dbGet, if_pos rfl]; rfl
      rw [hhd, map_congr_mem (dbList tl p) _ _ hcongr, ih h2]
    · rw [dbList, if_neg hc, List.filter_cons_of_neg (by simpa using hc),
        map_congr_mem (dbList tl p) _ _ hcongr, ih h2]

/-! ## Finalize lemmas -/

theorem finalizeTask_absent (fe : FinalizeEnv) (chatId gid : String) (db : DB)
    (h : dbGet db (batchKey gid) = none) :
    finalizeTask fe chatId gid db = ⟨db, [], [DbOp.get (batchKey gid)], false⟩ := by
  have hb : batchStateOf db gid = none := by rw [batchStateOf, h]; rfl
  rw [finalizeTask, hb]

theorem finalizeTask_present (fe : FinalizeEnv) (chatId gid : String) (db : DB)
    (b : BatchInfo) (hb : batchStateOf db gid = some b)
    (he : fe.editThrows = false) (hd : fe.delOk = true) :
    (finalizeTask fe chatId gid db).db = dbDel db (batchKey gid)
    ∧ (finalizeTask fe chatId gid db).didWork = true := by
  rw [finalizeTask, hb]
  simp [he, hd]

theorem runFinalizes_absent (chatId gid : String) (fes : List FinalizeEnv) (db : DB)
    (h : dbGet db (batchKey gid) = none) :
    runFinalizes chatId gid fes db = ⟨db, 0, []⟩ := by
  induction fes with
  | nil => rfl
  | cons fe rest ih =>
    rw [runFinalizes]
    simp only [finalizeTask_absent fe chatId gid db h, ih]
    simp

/-- The content of the finalize edit when the BatchState is present: the
recomputed count and total over the batch-index namespace. -/
theorem finalizeTask_edits (fe : FinalizeEnv) (chatId gid : String) (db : DB)
    (b : BatchInfo) (hnd : (keys db).Nodup) (hb : batchStateOf db gid = some b) :
    (finalizeTask fe chatId gid db).edits =
      [{ chatId := chatId, messageId := b.messageId,
         finalCount := (batchEntries db gid).length,
         finalTotalCents := ((batchEntries db gid).map (fun q => entrySize q.2)).sum,
         firstFileId := b.firstFileId }] := by
  rw [finalizeTask, hb]
  have hlen : (dbList db (batchIdxPre gid)).length = (batchEntries db gid).length := by
    rw [dbList_eq_map_filter, List.length_map, batchEntries]
  have hsum : ((dbList db (batchIdxPre gid)).map (fun k => sizeOfGet (dbGet db k))).sum
      = ((batchEntries db gid).map (fun q => entrySize q.2)).sum := by
    rw [map_lookup_eq_filter db (batchIdxPre gid) hnd, batchEntries]
  by_cases he : fe.editThrows
  · simp [he, hlen, hsum]
  · by_cases hd : fe.delOk
    · simp [he, hd, hlen, hsum]
    · simp [he, hd, hlen, hsum]

/-! ## Concrete fixtures -/

/-- A store with one BatchState and two batch-index entries of group `g`. -/
def dbFin : DB :=
  [(batchKey "g", ⟨.batch ⟨some 9, some "img/a.jpg"⟩, .noMeta, some 60⟩),
   (batchIndexKey "g" "img/a.jpg", ⟨.str "img/a.jpg", .batchIdx (some 150), some 3600⟩),
   (batchIndexKey "g" "img/b.jpg", ⟨.str "img/b.jpg", .batchIdx (some 50), some 3600⟩)]

/-- An environment whose allocator prefixes `f/` and whose send succeeds. -/
def envW : Env :=
  { allocate := fun _ n => "f/" ++ n, send := .ok 7, putOk := fun _ => true,
    putErrMsg := "boom", now := 5, today := "d" }

/-- A three-photo message with a tie for the largest size. -/
def msgW : Message :=
  { chat_id := "c1", text := none, photo := some [⟨"a", 5⟩, ⟨"b", 7⟩, ⟨"c", 7⟩],
    document := none, media_group_id := none }

/-! ## C1 — finalize runs its real work exactly once per group -/

/-- C1 counterexample: the finalize guard is a non-atomic check-then-act —
the source suspends at awaited store and notification calls between the
BatchState re-read of line 230 and the delete of line 253 — so two scheduled
tasks that both pass the guard before either deletes (schedule 0,1,0,1) both
perform the real work: the recomputation and edit run twice, refuting
"performed exactly once per group, no matter how many finalize tasks were
scheduled or in what order they wake". -/
theorem finalize_duplicate_work_cex :
    (runSched "c1" "g" [0, 1, 0, 1]
      ⟨dbFin, [⟨⟨false, true⟩, .start⟩, ⟨⟨false, true⟩, .start⟩], [], 0⟩).workCount = 2
    ∧ (runSched "c1" "g" [0, 1, 0, 1]
      ⟨dbFin, [⟨⟨false, true⟩, .start⟩, ⟨⟨false, true⟩, .start⟩], [], 0⟩).edits.length
        = 2 := by
  decide

/-- C1 as amended: over any number of scheduled finalize tasks of one group
that run without overlapping — each task's guard read and delete complete
before the next task wakes — with the edit and delete calls succeeding,
exactly one task finds the BatchState present and performs the real work;
and every finalize task that re-reads the BatchState key and finds it absent
leaves the store unchanged, performs no store writes and no notification
edits. -/
theorem finalize_exactly_once_per_group :
    (∀ (chatId gid : String) (fes : List FinalizeEnv) (db : DB) (b : BatchInfo),
       batchStateOf db gid = some b →
       (∀ fe ∈ fes, fe.editThrows = false ∧ fe.delOk = true) →
       fes ≠ [] →
       (runFinalizes chatId gid fes db).workCount = 1)
    ∧ (∀ (fe : FinalizeEnv) (chatId gid : String) (db : DB),
       dbGet db (batchKey gid) = none →
       (finalizeTask fe chatId gid db).db = db
       ∧ (finalizeTask fe chatId gid db).edits = []
       ∧ writesOf (finalizeTask fe chatId gid db).ops = []
       ∧ (finalizeTask fe chatId gid db).didWork = false) := by
  constructor
  · intro chatId gid fes db b hb hall hne
    cases fes with
    | nil => exact absurd rfl hne
    | cons fe rest =>
      obtain ⟨he, hd⟩ := hall fe (List.mem_cons_self _ _)
      have hfp := finalizeTask_present fe chatId gid db b hb he hd
      have habs : dbGet (finalizeTask fe chatId gid db).db (batchKey gid) = none := by
        rw [hfp.1]
        exact dbGet_dbDel_self db (batchKey gid)
      simp only [runFinalizes]
      rw [runFinalizes_absent chatId gid rest _ habs, hfp.2]
      simp
  · intro fe chatId gid db h
    rw [finalizeTask_absent fe chatId gid db h]
    exact ⟨rfl, rfl, rfl, rfl⟩

theorem finalize_exactly_once_per_group_witness :
    (runFinalizes "c1" "g" [⟨false, true⟩, ⟨false, true⟩] dbFin).workCount = 1 :=
  finalize_exactly_once_per_group.1 "c1" "g" [⟨false, true⟩, ⟨false, true⟩] dbFin
    ⟨some 9, some "img/a.jpg"⟩ rfl (by decide) (by decide)

/-! ## C3 — finalize deletes the BatchState even without a message handle -/

/-- C3: when finalize finds the BatchState present but its notification
handle was never set, the edit is attempted with the null handle and the
BatchState is still deleted (modelled from the spec: the notification client
returns an `{ok, ...}` response rather than throwing on an API error, so the
delete on the same sequential path runs). -/
theorem finalize_deletes_without_message_handle :
    ∀ (fe : FinalizeEnv) (chatId gid : String) (db : DB) (b : BatchInfo),
      batchStateOf db gid = some b → b.messageId = none →
      fe.editThrows = false → fe.delOk = true →
      dbGet (finalizeTask fe chatId gid db).db (batchKey gid) = none
      ∧ (finalizeTask fe chatId gid db).edits.map EditCall.messageId = [none] := by
  intro fe chatId gid db b hb hm he hd
  constructor
  · rw [(finalizeTask_present fe chatId gid db b hb he hd).1]
    exact dbGet_dbDel_self db (batchKey gid)
  · rw [finalizeTask, hb]
    simp [he, hd, hm]

/-- A store whose BatchState of group `g` has no notification handle. -/
def dbFinNoMsg : DB :=
  [(batchKey "g", ⟨.batch ⟨none, some "img/a.jpg"⟩, .noMeta, some 60⟩),
   (batchIndexKey "g" "img/a.jpg", ⟨.str "img/a.jpg", .batchIdx (some 150), some 3600⟩)]

theorem finalize_deletes_without_message_handle_witness :
    dbGet (finalizeTask ⟨false, true⟩ "c1" "g" dbFinNoMsg).db (batchKey "g") = none
    ∧ (finalizeTask ⟨false, true⟩ "c1" "g" dbFinNoMsg).edits.map EditCall.messageId = [none] :=
  finalize_deletes_without_message_handle ⟨false, true⟩ "c1" "g" dbFinNoMsg
    ⟨none, some "img/a.jpg"⟩ rfl rfl rfl rfl

/-! ## C6 — finalize recomputes count and total from the batch index -/

/-- C6: when finalize finds the BatchState present, the edit it issues
reports exactly the number of batch-index entries under the group's
namespace and the sum of their recorded sizes (missing size metadata
contributing zero), and these reported totals are invariant under any
permutation of the batch-index entries (arrival order independence). -/
theorem finalize_totals_recomputed :
    ∀ (fe : FinalizeEnv) (chatId gid : String) (db : DB) (b : BatchInfo),
      (keys db).Nodup → batchStateOf db gid = some b →
      ((finalizeTask fe chatId gid db).edits =
        [{ chatId := chatId, messageId := b.messageId,
           finalCount := (batchEntries db gid).length,
           finalTotalCents := ((batchEntries db gid).map (fun q => entrySize q.2)).sum,
           firstFileId := b.firstFileId }])
      ∧ (∀ (db2 : DB) (b2 : BatchInfo), (keys db2).Nodup → batchStateOf db2 gid = some b2 →
          (batchEntries db gid).Perm (batchEntries db2 gid) →
          (finalizeTask fe chatId gid db).edits.map (fun e => (e.finalCount, e.finalTotalCents))
            = (finalizeTask fe chatId gid db2).edits.map
                (fun e => (e.finalCount, e.finalTotalCents))) := by
  intro fe chatId gid db b hnd hb
  refine ⟨finalizeTask_edits fe chatId gid db b hnd hb, ?_⟩
  intro db2 b2 hnd2 hb2 hperm
  rw [finalizeTask_edits fe chatId gid db b hnd hb,
    finalizeTask_edits fe chatId gid db2 b2 hnd2 hb2]
  have h1 : (batchEntries db gid).length = (batchEntries db2 gid).length := hperm.length_eq
  have h2 : ((batchEntries db gid).map (fun q => entrySize q.2)).sum
      = ((batchEntries db2 gid).map (fun q => entrySize q.2)).sum :=
    (hperm.map _).sum_eq
  rw [h1, h2]
  simp

theorem finalize_totals_recomputed_witness :
    (finalizeTask ⟨false, true⟩ "c1" "g" dbFin).edits =
      [{ chatId := "c1", messageId := some 9,
         finalCount := (batchEntries dbFin "g").length,
         finalTotalCents := ((batchEntries dbFin "g").map (fun q => entrySize q.2)).sum,
         firstFileId := some "img/a.jpg" }] :=
  (finalize_totals_recomputed ⟨false, true⟩ "c1" "g" dbFin
    ⟨some 9, some "img/a.jpg"⟩ (by decide) rfl).1

/-! ## C10 — the largest photo element is selected, last wins on ties -/

theorem largestPhoto_spec (p0 : PhotoSize) (rest : List PhotoSize) :
    ∃ lp, largestPhoto (p0 :: rest) = some lp
      ∧ (∀ q ∈ p0 :: rest, q.file_size ≤ lp.file_size)
      ∧ ∃ i : Fin (p0 :: rest).length, (p0 :: rest).get i = lp
          ∧ ∀ j : Fin (p0 :: rest).length, i.1 < j.1 →
              ((p0 :: rest).get j).file_size < lp.file_size := by
  rcases foldl_photoMax_spec rest p0 with ⟨heq, hlt⟩ | ⟨i, heq, hge, hall, hlast⟩
  · refine ⟨rest.foldl photoMax p0, rfl, ?_, ⟨0, by simp⟩, ?_, ?_⟩
    · intro q hq
      rw [heq]
      rcases List.mem_cons.mp hq with hqx | hq
      · rw [hqx]
      · exact le_of_lt (hlt q hq)
    · rw [heq]; simp
    · intro j hj
      rw [heq]
      obtain ⟨jv, hjlt⟩ := j
      cases jv with
      | zero => simp at hj
      | succ n =>
        have hn : n < rest.length := by
          simp only [List.length_cons] at hjlt; omega
        simp only [List.get_cons_succ]
        exact hlt _ (List.get_mem rest n hn)
  · have hilt : i.1 + 1 < (p0 :: rest).length := by
      simp only [List.length_cons]; omega
    refine ⟨rest.foldl photoMax p0, rfl, ?_, ⟨i.1 + 1, hilt⟩, ?_, ?_⟩
    · intro q hq
      rw [heq]
      have hgi : rest.get ⟨i.1, i.2⟩ = rest.get i := by congr
      rcases List.mem_cons.mp hq with hqx | hq
      · rw [hqx]; exact hge
      · exact hall q hq
    · rw [List.get_cons_succ, heq]
    · intro j hj
      rw [heq]
      obtain ⟨jv, hjlt⟩ := j
      cases jv with
      | zero => simp at hj
      | succ n =>
        have hn : n < rest.length := by
          simp only [List.length_cons] at hjlt; omega
        simp only [List.get_cons_succ]
        have hgi : rest.get ⟨i.1, i.2⟩ = rest.get i := by congr
        rw [hgi]
        exact hlast ⟨n, hn⟩ (Nat.lt_of_succ_lt_succ hj)

/-- C10: for a message with a non-empty photo array, the extraction takes
identifier and size from an element of maximal `file_size`, the last such
element when several tie (the reduce keeps the current element unless the
accumulator is strictly larger); no other element's identifier can reach the
metadata or the batch bookkeeping. -/
theorem largest_photo_selection :
    ∀ (env : Env) (msg : Message) (p0 : PhotoSize) (rest : List PhotoSize),
      msg.photo = some (p0 :: rest) →
      ∃ lp, largestPhoto (p0 :: rest) = some lp
        ∧ extractFile env msg = .info lp.file_id lp.file_size
            ("photo_" ++ env.today ++ "_" ++ toString env.now ++ ".jpg") "image/jpeg"
        ∧ (∀ q ∈ p0 :: rest, q.file_size ≤ lp.file_size)
        ∧ ∃ i : Fin (p0 :: rest).length, (p0 :: rest).get i = lp
            ∧ ∀ j : Fin (p0 :: rest).length, i.1 < j.1 →
                ((p0 :: rest).get j).file_size < lp.file_size := by
  intro env msg p0 rest hphoto
  obtain ⟨lp, h1, h2, h3⟩ := largestPhoto_spec p0 rest
  exact ⟨lp, h1, by simp only [extractFile, hphoto, h1], h2, h3⟩

theorem largest_photo_selection_witness :
    ∃ lp, largestPhoto [(⟨"a", 5⟩ : PhotoSize), ⟨"b", 7⟩, ⟨"c", 7⟩] = some lp
      ∧ extractFile envW msgW = .info lp.file_id lp.file_size
          ("photo_" ++ envW.today ++ "_" ++ toString envW.now ++ ".jpg") "image/jpeg"
      ∧ (∀ q ∈ [(⟨"a", 5⟩ : PhotoSize), ⟨"b", 7⟩, ⟨"c", 7⟩], q.file_size ≤ lp.file_size)
      ∧ ∃ i : Fin [(⟨"a", 5⟩ : PhotoSize), ⟨"b", 7⟩, ⟨"c", 7⟩].length,
          [(⟨"a", 5⟩ : PhotoSize), ⟨"b", 7⟩, ⟨"c", 7⟩].get i = lp
          ∧ ∀ j : Fin [(⟨"a", 5⟩ : PhotoSize), ⟨"b", 7⟩, ⟨"c", 7⟩].length, i.1 < j.1 →
              ([(⟨"a", 5⟩ : PhotoSize), ⟨"b", 7⟩, ⟨"c", 7⟩].get j).file_size < lp.file_size :=
  largest_photo_selection envW msgW ⟨"a", 5⟩ [⟨"b", 7⟩, ⟨"c", 7⟩] rfl

/-! ## C2 — a dedup hit aborts before allocation, writes and sends -/

/-- C2: when the origin file identifier of the incoming file equals the
`TgFileId` recorded in the metadata of some stored entry, the handler returns
the `already_saved` result, leaves the store unchanged, performs no store
write, no notification send and no identity allocation — the scan decides
before `buildUniqueFileId` is ever called. -/
theorem dedup_hit_no_effects :
    ∀ (env : Env) (db : DB) (msg : Message) (cfg : WebhookCfg)
      (fid : String) (fsz : Nat) (fname ftyp k : String) (e : DBEntry),
      msg.text = none →
      extractFile env msg = .info fid fsz fname ftyp →
      getWebhookConfig db = some cfg →
      cfg.enabled = true → cfg.targetChannel ≠ "" →
      dbGet db k = some e → metaTgFileId e.meta = some fid →
      ∃ k0, (handleTelegramMessage env db ⟨some msg⟩).out =
          .ret { success := false, reason := some "already_saved", existingFileId := some k0 }
        ∧ (handleTelegramMessage env db ⟨some msg⟩).db = db
        ∧ (handleTelegramMessage env db ⟨some msg⟩).tr.sends = []
        ∧ (handleTelegramMessage env db ⟨some msg⟩).tr.allocs = []
        ∧ (handleTelegramMessage env db ⟨some msg⟩).tr.scheduled = []
        ∧ writesOf (handleTelegramMessage env db ⟨some msg⟩).tr.ops = [] := by
  intro env db msg cfg fid fsz fname ftyp k e htext hex hcfg hen htc hget hmeta
  have hdir : isDirCommand msg = false := by rw [isDirCommand, htext]
  obtain ⟨k0, hscan⟩ := scanKeys_some db fid (dbList db "") k e
    (mem_dbList_of_dbGet db k e hget) hget hmeta
  have hcond : ¬(cfg.enabled = false ∨ cfg.targetChannel = "") := by
    simp [hen, htc]
  refine ⟨k0, ?_⟩
  simp only [handleTelegramMessage, hdir, Bool.false_eq_true, if_false,
    handleFileMessage, hex, hcfg, if_neg hcond, hscan]
  refine ⟨trivial, trivial, trivial, trivial, trivial, ?_⟩
  simp only [writesOf, List.filter_append]
  rw [← writesOf, ← writesOf, ← writesOf, writesOf_scanKeys]
  rfl

/-- A stored-file metadata fixture recording origin identifier `f1`. -/
def mdW : FileMetadata :=
  { Channel := "TelegramNew", ChannelName := "ch", TgFileId := "f1", TgChatId := "c1",
    TgBotToken := "tok", FileName := "a.jpg", FileType := "image/jpeg", FileSize := 10,
    UploadIP := "Bot", TimeStamp := 1, Label := "None", Directory := "", Tags := [],
    MediaGroupId := none, TgProxyUrl := none }

/-- A store holding the configuration and one stored file of origin `f1`. -/
def dbDup : DB :=
  [(webhookKey, ⟨.webhookCfg ⟨true, "ch"⟩, .noMeta, none⟩),
   ("old.jpg", ⟨.str "", .file mdW, none⟩)]

/-- A photo message whose origin identifier `f1` is already stored. -/
def msgDup : Message :=
  { chat_id := "c1", text := none, photo := some [⟨"f1", 100⟩],
    document := none, media_group_id := none }

theorem dedup_hit_no_effects_witness :
    ∃ k0, (handleTelegramMessage envW dbDup ⟨some msgDup⟩).out =
        .ret { success := false, reason := some "already_saved", existingFileId := some k0 }
      ∧ (handleTelegramMessage envW dbDup ⟨some msgDup⟩).db = dbDup
      ∧ (handleTelegramMessage envW dbDup ⟨some msgDup⟩).tr.sends = []
      ∧ (handleTelegramMessage envW dbDup ⟨some msgDup⟩).tr.allocs = []
      ∧ (handleTelegramMessage envW dbDup ⟨some msgDup⟩).tr.scheduled = []
      ∧ writesOf (handleTelegramMessage envW dbDup ⟨some msgDup⟩).tr.ops = [] :=
  dedup_hit_no_effects envW dbDup msgDup ⟨true, "ch"⟩ "f1" 100 "photo_d_5.jpg"
    "image/jpeg" "old.jpg" ⟨.str "", .file mdW, none⟩ rfl (by decide) rfl rfl
    (by decide) (by decide) (by decide)

/-! ## C4 — a primary write failure aborts with `database_error` -/

/-- The configuration-only store of the write-failure scenarios. -/
def dbBase : DB :=
  [(webhookKey, ⟨.webhookCfg ⟨true, "ch"⟩, .noMeta, none⟩),
   (uploadCfgKey, ⟨.uploadCfg [⟨"ch", "tok", ""⟩], .noMeta, none⟩)]

/-- An environment whose store rejects exactly the batch-index puts. -/
def envBatchFail : Env :=
  { allocate := fun _ n => "f/" ++ n, send := .ok 7,
    putOk := fun kk => !(strStartsWith kk "batch_index_"),
    putErrMsg := "boom", now := 5, today := "d" }

/-- A grouped single-photo message of group `g1`. -/
def msgGrp : Message :=
  { chat_id := "c1", text := none, photo := some [⟨"f2", 100⟩],
    document := none, media_group_id := some "g1" }

/-- C4 counterexample: with the metadata put succeeding and the batch-index
put failing, the handler returns `database_error`, yet the store is NOT
unchanged — the StoredFile record written by the first put persists,
contradicting the claim's "the store state is unchanged on this error (no
StoredFile persists for the event)". -/
theorem db_error_store_changed_cex :
    (handleTelegramMessage envBatchFail dbBase ⟨some msgGrp⟩).out =
      .ret { success := false, reason := some "database_error", error := some "boom" }
    ∧ (handleTelegramMessage envBatchFail dbBase ⟨some msgGrp⟩).db ≠ dbBase
    ∧ dbGet (handleTelegramMessage envBatchFail dbBase ⟨some msgGrp⟩).db
        "f/photo_d_5.jpg" ≠ none := by
  decide

/-- C4 as amended: a failing store write in the primary step (the StoredFile
metadata put, or the batch-index put of a grouped file) makes the event
return `database_error` with no notification send, no finalize task, no
`endUpload` and no batch-state write; the store is unchanged when the
metadata put itself fails, while a batch-index put failure leaves the
already-written StoredFile record behind (its only write). -/
theorem db_error_aborts_secondary_effects :
    ∀ (env : Env) (db : DB) (msg : Message) (cfg : WebhookCfg) (ch : Channel)
      (fid : String) (fsz : Nat) (fname ftyp : String),
      msg.text = none →
      extractFile env msg = .info fid fsz fname ftyp →
      getWebhookConfig db = some cfg →
      cfg.enabled = true → cfg.targetChannel ≠ "" →
      (∀ q ∈ db, metaTgFileId q.2.meta ≠ some fid) →
      getTelegramChannel db cfg.targetChannel = some ch →
      (env.putOk (env.allocate (getUploadDir db msg.chat_id) fname) = false →
        (handleTelegramMessage env db ⟨some msg⟩).out =
          .ret { success := false, reason := some "database_error",
                 error := some env.putErrMsg }
        ∧ (handleTelegramMessage env db ⟨some msg⟩).db = db
        ∧ (handleTelegramMessage env db ⟨some msg⟩).tr.sends = []
        ∧ (handleTelegramMessage env db ⟨some msg⟩).tr.scheduled = []
        ∧ (handleTelegramMessage env db ⟨some msg⟩).tr.endUploads = []
        ∧ writesOf (handleTelegramMessage env db ⟨some msg⟩).tr.ops = [])
      ∧ (∀ gid, msg.media_group_id = some gid → gid ≠ "" →
          env.putOk (env.allocate (getUploadDir db msg.chat_id) fname) = true →
          env.putOk (batchIndexKey gid (env.allocate (getUploadDir db msg.chat_id) fname))
            = false →
          (handleTelegramMessage env db ⟨some msg⟩).out =
            .ret { success := false, reason := some "database_error",
                   error := some env.putErrMsg }
          ∧ (handleTelegramMessage env db ⟨some msg⟩).db =
              dbPut db (env.allocate (getUploadDir db msg.chat_id) fname)
                { value := .str "",
                  meta := .file (buildMeta env cfg ch msg.chat_id fid fname fsz
                    msg.media_group_id (env.allocate (getUploadDir db msg.chat_id) fname)),
                  ttl := none }
          ∧ (handleTelegramMessage env db ⟨some msg⟩).tr.sends = []
          ∧ (handleTelegramMessage env db ⟨some msg⟩).tr.scheduled = []
          ∧ (handleTelegramMessage env db ⟨some msg⟩).tr.endUploads = []
          ∧ writesOf (handleTelegramMessage env db ⟨some msg⟩).tr.ops =
              [DbOp.put (env.allocate (getUploadDir db msg.chat_id) fname)]) := by
  intro env db msg cfg ch fid fsz fname ftyp htext hex hcfg hen htc hnohit hch
  have hdir : isDirCommand msg = false := by rw [isDirCommand, htext]
  have hscan : (scanKeys db fid (dbList db "")).1 = none :=
    scanKeys_none db fid (dbList db "") hnohit
  have hcond : ¬(cfg.enabled = false ∨ cfg.targetChannel = "") := by
    simp [hen, htc]
  constructor
  · intro hput
    simp only [handleTelegramMessage, hdir, Bool.false_eq_true, if_false,
      handleFileMessage, hex, hcfg, if_neg hcond, hscan, hch, hput, if_pos]
    refine ⟨trivial, trivial, trivial, trivial, trivial, ?_⟩
    simp only [writesOf, List.filter_append]
    rw [← writesOf, ← writesOf, ← writesOf, ← writesOf, writesOf_scanKeys]
    rfl
  · intro gid hmg hgid hput1 hput2
    have hput1n : ¬(env.putOk (env.allocate (getUploadDir db msg.chat_id) fname) = false) := by
      rw [hput1]; simp
    simp only [handleTelegramMessage, hdir, Bool.false_eq_true, if_false,
      handleFileMessage, hex, hcfg, if_neg hcond, hscan, hch, hmg,
      if_neg hput1n, if_neg hgid, hput2, if_pos]
    refine ⟨trivial, trivial, trivial, trivial, trivial, ?_⟩
    simp only [writesOf, List.filter_append]
    rw [← writesOf, ← writesOf, ← writesOf, ← writesOf, writesOf_scanKeys]
    rfl

theorem db_error_aborts_secondary_effects_witness :
    (handleTelegramMessage envBatchFail dbBase ⟨some msgGrp⟩).out =
      .ret { success := false, reason := some "database_error",
             error := some envBatchFail.putErrMsg }
    ∧ (handleTelegramMessage envBatchFail dbBase ⟨some msgGrp⟩).db =
        dbPut dbBase (envBatchFail.allocate (getUploadDir dbBase msgGrp.chat_id)
          "photo_d_5.jpg")
          { value := .str "",
            meta := .file (buildMeta envBatchFail ⟨true, "ch"⟩ ⟨"ch", "tok", ""⟩
              msgGrp.chat_id "f2" "photo_d_5.jpg" 100 msgGrp.media_group_id
              (envBatchFail.allocate (getUploadDir dbBase msgGrp.chat_id)
                "photo_d_5.jpg")),
            ttl := none }
    ∧ (handleTelegramMessage envBatchFail dbBase ⟨some msgGrp⟩).tr.sends = []
    ∧ (handleTelegramMessage envBatchFail dbBase ⟨some msgGrp⟩).tr.scheduled = []
    ∧ (handleTelegramMessage envBatchFail dbBase ⟨some msgGrp⟩).tr.endUploads = []
    ∧ writesOf (handleTelegramMessage envBatchFail dbBase ⟨some msgGrp⟩).tr.ops =
        [DbOp.put (envBatchFail.allocate (getUploadDir dbBase msgGrp.chat_id)
          "photo_d_5.jpg")] :=
  (db_error_aborts_secondary_effects envBatchFail dbBase msgGrp ⟨true, "ch"⟩
    ⟨"ch", "tok", ""⟩ "f2" 100 "photo_d_5.jpg" "image/jpeg" rfl (by decide) rfl rfl
    (by decide) (by decide) (by decide)).2 "g1" rfl (by decide) (by decide) (by decide)

/-! ## C5 — the stored metadata record -/

theorem strStartsWith_data (k p : String) (t : List Char) (h : k.data = p.data ++ t) :
    strStartsWith k p = true := by
  rw [strStartsWith, h]
  generalize p.data = l
  induction l with
  | nil => rfl
  | cons c cs ih => simp [isPreOf, ih]

theorem strStartsWith_batchIndexKey (gid fullId : String) :
    strStartsWith (batchIndexKey gid fullId) "batch_index_" = true := by
  apply strStartsWith_data _ _ (gid.data ++ ("_".data ++ fullId.data))
  have hd : (batchIndexKey gid fullId).data =
      (("batch_index_".data ++ gid.data) ++ "_".data) ++ fullId.data := rfl
  rw [hd]
  simp [List.append_assoc]

theorem strStartsWith_batchKey (gid : String) :
    strStartsWith (batchKey gid) "telegram_batch_" = true := by
  apply strStartsWith_data _ _ gid.data
  rfl

/-- The result's metadata field, when the run returned. -/
def resultMetadata : Outcome → Option FileMetadata
  | .ret r => r.metadata
  | .thrown => none

/-- A document message declaring the type `image/png`. -/
def msgDoc : Message :=
  { chat_id := "c1", text := none, photo := none,
    document := some ⟨"doc1", 1048576, some "pic.png", some "image/png"⟩,
    media_group_id := none }

/-- C5 counterexample: a stored document whose declared type is `image/png`
is recorded with `FileType` `"image/jpeg"` (line 150 writes the literal, not
the extracted declared type), contradicting the claim's "the declared file
type". -/
theorem metadata_filetype_cex :
    extractFile envW msgDoc = .info "doc1" 1048576 "pic.png" "image/png"
    ∧ (resultMetadata (handleTelegramMessage envW dbBase ⟨some msgDoc⟩).out).map
        FileMetadata.FileType = some "image/jpeg" := by
  decide

/-- C5 as amended: the metadata record written under the allocated key (and
returned in the result) carries the origin identifier, the owning chat, the
determined file name, the constant file type `"image/jpeg"` (not the declared
type), the size in megabytes to two decimal places, a `Directory` equal to
the prefix of the actually-allocated key up to and including its last `/`
(empty when the key has no `/`), and the media-group identifier when truthy,
else the explicit null. -/
theorem metadata_contents :
    ∀ (env : Env) (db : DB) (msg : Message) (cfg : WebhookCfg) (ch : Channel)
      (fid : String) (fsz : Nat) (fname ftyp : String),
      msg.text = none →
      extractFile env msg = .info fid fsz fname ftyp →
      getWebhookConfig db = some cfg →
      cfg.enabled = true → cfg.targetChannel ≠ "" →
      (∀ q ∈ db, metaTgFileId q.2.meta ≠ some fid) →
      getTelegramChannel db cfg.targetChannel = some ch →
      env.putOk (env.allocate (getUploadDir db msg.chat_id) fname) = true →
      strStartsWith (env.allocate (getUploadDir db msg.chat_id) fname) "batch_index_"
        = false →
      strStartsWith (env.allocate (getUploadDir db msg.chat_id) fname) "telegram_batch_"
        = false →
      (buildMeta env cfg ch msg.chat_id fid fname fsz msg.media_group_id
          (env.allocate (getUploadDir db msg.chat_id) fname)).TgFileId = fid
      ∧ (buildMeta env cfg ch msg.chat_id fid fname fsz msg.media_group_id
          (env.allocate (getUploadDir db msg.chat_id) fname)).TgChatId = msg.chat_id
      ∧ (buildMeta env cfg ch msg.chat_id fid fname fsz msg.media_group_id
          (env.allocate (getUploadDir db msg.chat_id) fname)).FileName = fname
      ∧ (buildMeta env cfg ch msg.chat_id fid fname fsz msg.media_group_id
          (env.allocate (getUploadDir db msg.chat_id) fname)).FileType = "image/jpeg"
      ∧ (buildMeta env cfg ch msg.chat_id fid fname fsz msg.media_group_id
          (env.allocate (getUploadDir db msg.chat_id) fname)).FileSize = mbCents fsz
      ∧ (buildMeta env cfg ch msg.chat_id fid fname fsz msg.media_group_id
          (env.allocate (getUploadDir db msg.chat_id) fname)).MediaGroupId
          = (if truthyOptStr msg.media_group_id then msg.media_group_id else none)
      ∧ (buildMeta env cfg ch msg.chat_id fid fname fsz msg.media_group_id
          (env.allocate (getUploadDir db msg.chat_id) fname)).Directory
          = actualDirectory (env.allocate (getUploadDir db msg.chat_id) fname)
      ∧ (∃ restC, (env.allocate (getUploadDir db msg.chat_id) fname).data =
            (actualDirectory (env.allocate (getUploadDir db msg.chat_id) fname)).data
              ++ restC
          ∧ '/' ∉ restC)
      ∧ ('/' ∈ (env.allocate (getUploadDir db msg.chat_id) fname).data →
          ∃ pre, (actualDirectory (env.allocate (getUploadDir db msg.chat_id) fname)).data
            = pre ++ ['/'])
      ∧ ('/' ∉ (env.allocate (getUploadDir db msg.chat_id) fname).data →
          (actualDirectory (env.allocate (getUploadDir db msg.chat_id) fname)).data = [])
      ∧ ((truthyOptStr msg.media_group_id = false ∨
            (∀ gid, msg.media_group_id = some gid →
              env.putOk (batchIndexKey gid (env.allocate (getUploadDir db msg.chat_id) fname))
                = true
              ∧ env.putOk (batchKey gid) = true)) →
          resultMetadata (handleTelegramMessage env db ⟨some msg⟩).out =
            some (buildMeta env cfg ch msg.chat_id fid fname fsz msg.media_group_id
              (env.allocate (getUploadDir db msg.chat_id) fname))
          ∧ dbGet (handleTelegramMessage env db ⟨some msg⟩).db
              (env.allocate (getUploadDir db msg.chat_id) fname) =
            some { value := .str "",
                   meta := .file (buildMeta env cfg ch msg.chat_id fid fname fsz
                     msg.media_group_id (env.allocate (getUploadDir db msg.chat_id) fname)),
                   ttl := none }) := by
  intro env db msg cfg ch fid fsz fname ftyp htext hex hcfg hen htc hnohit hch hput hf1 hf2
  have hdir : isDirCommand msg = false := by rw [isDirCommand, htext]
  have hscan : (scanKeys db fid (dbList db "")).1 = none :=
    scanKeys_none db fid (dbList db "") hnohit
  have hcond : ¬(cfg.enabled = false ∨ cfg.targetChannel = "") := by
    simp [hen, htc]
  have hputn : ¬(env.putOk (env.allocate (getUploadDir db msg.chat_id) fname) = false) := by
    rw [hput]; simp
  obtain ⟨restC, hsplit, hnr, hslash, hnone⟩ :=
    dirOfAux_spec (env.allocate (getUploadDir db msg.chat_id) fname).data
  refine ⟨rfl, rfl, rfl, rfl, rfl, rfl, rfl, ⟨restC, hsplit, hnr⟩, hslash, ?_, ?_⟩
  · intro hno
    exact hnone hno
  · intro hside
    cases hmg : msg.media_group_id with
    | none =>
      simp only [handleTelegramMessage, hdir, Bool.false_eq_true, if_false,
        handleFileMessage, hex, hcfg, if_neg hcond, hscan, hch, if_neg hputn, hmg,
        singleTail, resultMetadata]
      exact ⟨by trivial, dbGet_dbPut_self db _ _⟩
    | some gid =>
      by_cases hgid : gid = ""
      · subst hgid
        simp only [handleTelegramMessage, hdir, Bool.false_eq_true, if_false,
          handleFileMessage, hex, hcfg, if_neg hcond, hscan, hch, if_neg hputn, hmg,
          if_pos rfl, singleTail, resultMetadata]
        exact ⟨by trivial, dbGet_dbPut_self db _ _⟩
      · have hputs : env.putOk (batchIndexKey gid
            (env.allocate (getUploadDir db msg.chat_id) fname)) = true
            ∧ env.putOk (batchKey gid) = true := by
          rcases hside with hfalse | hforall
          · rw [hmg] at hfalse
            exact absurd hfalse (by simp [truthyOptStr, hgid])
          · exact hforall gid hmg
        have hne2 : batchIndexKey gid (env.allocate (getUploadDir db msg.chat_id) fname)
            ≠ env.allocate (getUploadDir db msg.chat_id) fname := by
          intro heq
          have := strStartsWith_batchIndexKey gid
            (env.allocate (getUploadDir db msg.chat_id) fname)
          rw [heq, hf1] at this
          cases this
        have hne3 : batchKey gid ≠ env.allocate (getUploadDir db msg.chat_id) fname := by
          intro heq
          have := strStartsWith_batchKey gid
          rw [heq, hf2] at this
          cases this
        have hput2n : ¬(env.putOk (batchIndexKey gid
            (env.allocate (getUploadDir db msg.chat_id) fname)) = false) := by
          rw [hputs.1]; simp
        have hput3n : ¬(env.putOk (batchKey gid) = false) := by
          rw [hputs.2]; simp
        simp only [handleTelegramMessage, hdir, Bool.false_eq_true, if_false,
          handleFileMessage, hex, hcfg, if_neg hcond, hscan, hch, if_neg hputn, hmg,
          if_neg hgid, if_neg hput2n, groupedTail, if_neg hput3n, resultMetadata]
        refine ⟨by trivial, ?_⟩
        rw [dbGet_dbPut_ne _ _ _ _ hne3, dbGet_dbPut_ne _ _ _ _ hne2,
          dbGet_dbPut_self]

theorem metadata_contents_witness :
    (buildMeta envW ⟨true, "ch"⟩ ⟨"ch", "tok", ""⟩ msgGrp.chat_id "f2" "photo_d_5.jpg" 100
        msgGrp.media_group_id (envW.allocate (getUploadDir dbBase msgGrp.chat_id)
        "photo_d_5.jpg")).FileType = "image/jpeg"
    ∧ resultMetadata (handleTelegramMessage envW dbBase ⟨some msgGrp⟩).out =
        some (buildMeta envW ⟨true, "ch"⟩ ⟨"ch", "tok", ""⟩ msgGrp.chat_id "f2"
          "photo_d_5.jpg" 100 msgGrp.media_group_id
          (envW.allocate (getUploadDir dbBase msgGrp.chat_id) "photo_d_5.jpg")) := by
  have h := metadata_contents envW dbBase msgGrp ⟨true, "ch"⟩ ⟨"ch", "tok", ""⟩ "f2" 100
    "photo_d_5.jpg" "image/jpeg" rfl (by decide) rfl rfl (by decide) (by decide)
    (by decide) (by decide) (by decide) (by decide)
  refine ⟨h.2.2.2.1, ?_⟩
  exact (h.2.2.2.2.2.2.2.2.2.2 (Or.inr (fun gid hg => by
    cases hg; exact ⟨by decide, by decide⟩))).1

/-! ## C7 — BatchState first-file-wins and refresh invariants -/

theorem batchKey_not_batchIndex (gid : String) :
    strStartsWith (batchKey gid) "batch_index_" = false := rfl

/-- C7: for a grouped arrival that reaches the batch section, the BatchState
is rewritten under its key with a 60 second expiry and no metadata; a
notification handle already set by an earlier arrival is preserved and no
further send is attempted; a first-file identifier already set is preserved,
and a fresh record takes this arrival's key as first file; and the store
keeps at most one BatchState entry per group identifier. -/
theorem batchstate_first_wins_refresh :
    ∀ (env : Env) (db : DB) (msg : Message) (cfg : WebhookCfg) (ch : Channel)
      (fid : String) (fsz : Nat) (fname ftyp gid : String),
      msg.text = none →
      extractFile env msg = .info fid fsz fname ftyp →
      getWebhookConfig db = some cfg →
      cfg.enabled = true → cfg.targetChannel ≠ "" →
      (∀ q ∈ db, metaTgFileId q.2.meta ≠ some fid) →
      getTelegramChannel db cfg.targetChannel = some ch →
      msg.media_group_id = some gid → gid ≠ "" →
      env.putOk (env.allocate (getUploadDir db msg.chat_id) fname) = true →
      env.putOk (batchIndexKey gid (env.allocate (getUploadDir db msg.chat_id) fname))
        = true →
      env.putOk (batchKey gid) = true →
      strStartsWith (env.allocate (getUploadDir db msg.chat_id) fname) "batch_index_"
        = false →
      strStartsWith (env.allocate (getUploadDir db msg.chat_id) fname) "telegram_batch_"
        = false →
      ∃ b2 : BatchInfo,
        dbGet (handleTelegramMessage env db ⟨some msg⟩).db (batchKey gid) =
          some { value := .batch b2, meta := .noMeta, ttl := some 60 }
        ∧ (∀ ob m, batchStateOf db gid = some ob → ob.messageId = some m → m ≠ 0 →
            b2.messageId = some m
            ∧ (handleTelegramMessage env db ⟨some msg⟩).tr.sends = [])
        ∧ (∀ ob s, batchStateOf db gid = some ob → ob.firstFileId = some s → s ≠ "" →
            b2.firstFileId = some s)
        ∧ (batchStateOf db gid = none →
            b2.firstFileId = some (env.allocate (getUploadDir db msg.chat_id) fname))
        ∧ ((keys db).Nodup →
            (keys (handleTelegramMessage env db ⟨some msg⟩).db).Nodup
            ∧ (keys (handleTelegramMessage env db ⟨some msg⟩).db).count (batchKey gid) ≤ 1) := by
  intro env db msg cfg ch fid fsz fname ftyp gid htext hex hcfg hen htc hnohit hch hmg
    hgid hput1 hput2 hput3 hf1 hf2
  have hdir : isDirCommand msg = false := by rw [isDirCommand, htext]
  have hscan : (scanKeys db fid (dbList db "")).1 = none :=
    scanKeys_none db fid (dbList db "") hnohit
  have hcond : ¬(cfg.enabled = false ∨ cfg.targetChannel = "") := by
    simp [hen, htc]
  have hput1n : ¬(env.putOk (env.allocate (getUploadDir db msg.chat_id) fname) = false) := by
    rw [hput1]; simp
  have hput2n : ¬(env.putOk (batchIndexKey gid
      (env.allocate (getUploadDir db msg.chat_id) fname)) = false) := by
    rw [hput2]; simp
  have hput3n : ¬(env.putOk (batchKey gid) = false) := by
    rw [hput3]; simp
  have hne1 : env.allocate (getUploadDir db msg.chat_id) fname ≠ batchKey gid := by
    intro heq
    have h1 := strStartsWith_batchKey gid
    rw [← heq, hf2] at h1
    cases h1
  have hne2 : batchIndexKey gid (env.allocate (getUploadDir db msg.chat_id) fname)
      ≠ batchKey gid := by
    intro heq
    have h1 := strStartsWith_batchIndexKey gid
      (env.allocate (getUploadDir db msg.chat_id) fname)
    rw [heq, batchKey_not_batchIndex] at h1
    cases h1
  have hbs : batchStateOf
      (dbPut (dbPut db (env.allocate (getUploadDir db msg.chat_id) fname)
        { value := .str "",
          meta := .file (buildMeta env cfg ch msg.chat_id fid fname fsz
            (some gid) (env.allocate (getUploadDir db msg.chat_id) fname)),
          ttl := none })
        (batchIndexKey gid (env.allocate (getUploadDir db msg.chat_id) fname))
        { value := .str (env.allocate (getUploadDir db msg.chat_id) fname),
          meta := .batchIdx (some (buildMeta env cfg ch msg.chat_id fid fname fsz
            (some gid) (env.allocate (getUploadDir db msg.chat_id) fname)).FileSize),
          ttl := some 3600 }) gid = batchStateOf db gid := by
    rw [batchStateOf, dbGet_dbPut_ne _ _ _ _ hne2, dbGet_dbPut_ne _ _ _ _ hne1,
      batchStateOf]
  simp only [handleTelegramMessage, hdir, Bool.false_eq_true, if_false,
    handleFileMessage, hex, hcfg, if_neg hcond, hscan, hch, if_neg hput1n, hmg,
    if_neg hgid, if_neg hput2n, groupedTail, if_neg hput3n]
  rw [hbs]
  refine ⟨_, dbGet_dbPut_self _ _ _, ?_, ?_, ?_, ?_⟩
  · intro ob m hob hm hm0
    rw [hob]
    simp only [Option.getD_some]
    by_cases hfst : truthyOptStr ob.firstFileId = true
    · simp [hfst, truthyOptNat, hm, hm0]
    · simp only [Bool.not_eq_true] at hfst
      simp [hfst, truthyOptNat, hm, hm0]
  · intro ob s hob hs hs0
    rw [hob]
    simp only [Option.getD_some]
    by_cases htmm : truthyOptNat ob.messageId = true
    · simp [truthyOptStr, hs, hs0, htmm]
    · simp only [Bool.not_eq_true] at htmm
      cases hsend : env.send with
      | ok mid => simp [truthyOptStr, hs, hs0, htmm, hsend]
      | notOk => simp [truthyOptStr, hs, hs0, htmm, hsend]
      | throws => simp [truthyOptStr, hs, hs0, htmm, hsend]
  · intro hob
    rw [hob]
    simp only [Option.getD_none]
    cases hsend : env.send with
    | ok mid => simp [truthyOptStr, truthyOptNat, hsend]
    | notOk => simp [truthyOptStr, truthyOptNat, hsend]
    | throws => simp [truthyOptStr, truthyOptNat, hsend]
  · intro hnd
    exact ⟨nodup_keys_dbPut _ _ _ (nodup_keys_dbPut _ _ _ (nodup_keys_dbPut _ _ _ hnd)),
      count_le_one_of_nodup _
        (nodup_keys_dbPut _ _ _ (nodup_keys_dbPut _ _ _ (nodup_keys_dbPut _ _ _ hnd))) _⟩

/-- The configuration store extended with an existing BatchState of group
`g1` whose notification handle and first file are already set. -/
def dbC7 : DB :=
  [(webhookKey, ⟨.webhookCfg ⟨true, "ch"⟩, .noMeta, none⟩),
   (uploadCfgKey, ⟨.uploadCfg [⟨"ch", "tok", ""⟩], .noMeta, none⟩),
   (batchKey "g1", ⟨.batch ⟨some 9, some "first.jpg"⟩, .noMeta, some 60⟩)]

theorem batchstate_first_wins_refresh_witness :
    ∃ b2 : BatchInfo,
      dbGet (handleTelegramMessage envW dbC7 ⟨some msgGrp⟩).db (batchKey "g1") =
        some { value := .batch b2, meta := .noMeta, ttl := some 60 }
      ∧ (∀ ob m, batchStateOf dbC7 "g1" = some ob → ob.messageId = some m → m ≠ 0 →
          b2.messageId = some m
          ∧ (handleTelegramMessage envW dbC7 ⟨some msgGrp⟩).tr.sends = [])
      ∧ (∀ ob s, batchStateOf dbC7 "g1" = some ob → ob.firstFileId = some s → s ≠ "" →
          b2.firstFileId = some s)
      ∧ (batchStateOf dbC7 "g1" = none →
          b2.firstFileId =
            some (envW.allocate (getUploadDir dbC7 msgGrp.chat_id) "photo_d_5.jpg"))
      ∧ ((keys dbC7).Nodup →
          (keys (handleTelegramMessage envW dbC7 ⟨some msgGrp⟩).db).Nodup
          ∧ (keys (handleTelegramMessage envW dbC7 ⟨some msgGrp⟩).db).count
              (batchKey "g1") ≤ 1) :=
  batchstate_first_wins_refresh envW dbC7 msgGrp ⟨true, "ch"⟩ ⟨"ch", "tok", ""⟩ "f2" 100
    "photo_d_5.jpg" "image/jpeg" "g1" rfl (by decide) rfl rfl (by decide) (by decide)
    (by decide) rfl (by decide) (by decide) (by decide) (by decide) (by decide) (by decide)

/-! ## C8 — non-grouped files bypass the coalescer -/

/-- Is the operation a write to a batch-state or batch-index key? -/
def isBatchWrite : DbOp → Bool
  | .put k => strStartsWith k "telegram_batch_" || strStartsWith k "batch_index_"
  | .del k => strStartsWith k "telegram_batch_" || strStartsWith k "batch_index_"
  | _ => false

/-- Is the operation a `get` of a batch-state key (the coalescer's read)? -/
def isBatchStateGet : DbOp → Bool
  | .get k => strStartsWith k "telegram_batch_"
  | _ => false

/-- The result's success flag, when the run returned. -/
def resultSuccess : Outcome → Bool
  | .ret r => r.success
  | .thrown => false

theorem dirKey_not_batchState (c : String) :
    strStartsWith (dirKey c) "telegram_batch_" = false := rfl

/-- C8 counterexample: a successful non-grouped arrival whose dedup scan
reads (`getWithMetadata`) an existing BatchState record of the store — the
claim's "no BatchState record is read" is false, because the unbounded scan
of lines 110-117 fetches the metadata of every stored key, batch-state keys
included. -/
theorem nongrouped_scan_reads_batchstate_cex :
    resultSuccess (handleTelegramMessage envW dbC7 ⟨some msgW⟩).out = true
    ∧ DbOp.getWithMeta (batchKey "g1")
        ∈ (handleTelegramMessage envW dbC7 ⟨some msgW⟩).tr.ops
    ∧ msgW.media_group_id = none := by
  decide

theorem filter_isBatchWrite_scan (db : DB) (fid : String) (ks : List String) :
    (scanKeys db fid ks).2.filter isBatchWrite = [] := by
  rw [List.filter_eq_nil_iff]
  intro op hop
  obtain ⟨k, rfl⟩ := scanKeys_ops_reads db fid ks op hop
  simp [isBatchWrite]

theorem filter_isBatchStateGet_scan (db : DB) (fid : String) (ks : List String) :
    (scanKeys db fid ks).2.filter isBatchStateGet = [] := by
  rw [List.filter_eq_nil_iff]
  intro op hop
  obtain ⟨k, rfl⟩ := scanKeys_ops_reads db fid ks op hop
  simp [isBatchStateGet]

/-- C8 as amended: a successfully stored non-grouped file triggers exactly
one immediate notification send, schedules no finalize task, and neither
creates, writes nor reads any BatchState through the coalescer (no `get` of
a batch-state key, no write to batch keys) — though the dedup scan's
unbounded metadata sweep does read every stored key, so a BatchState record
present in the store is touched by `getWithMetadata` (see the
counterexample), which the original claim's "no BatchState record is read"
ruled out. -/
theorem nongrouped_bypasses_coalescer :
    ∀ (env : Env) (db : DB) (msg : Message) (cfg : WebhookCfg) (ch : Channel)
      (fid : String) (fsz : Nat) (fname ftyp : String),
      msg.text = none →
      extractFile env msg = .info fid fsz fname ftyp →
      getWebhookConfig db = some cfg →
      cfg.enabled = true → cfg.targetChannel ≠ "" →
      (∀ q ∈ db, metaTgFileId q.2.meta ≠ some fid) →
      getTelegramChannel db cfg.targetChannel = some ch →
      truthyOptStr msg.media_group_id = false →
      env.putOk (env.allocate (getUploadDir db msg.chat_id) fname) = true →
      strStartsWith (env.allocate (getUploadDir db msg.chat_id) fname) "batch_index_"
        = false →
      strStartsWith (env.allocate (getUploadDir db msg.chat_id) fname) "telegram_batch_"
        = false →
      resultSuccess (handleTelegramMessage env db ⟨some msg⟩).out = true
      ∧ (handleTelegramMessage env db ⟨some msg⟩).tr.sends =
          [SendCall.singleSaved msg.chat_id
            (env.allocate (getUploadDir db msg.chat_id) fname) (mbCents fsz)]
      ∧ (handleTelegramMessage env db ⟨some msg⟩).tr.scheduled = []
      ∧ (handleTelegramMessage env db ⟨some msg⟩).tr.ops.filter isBatchWrite = []
      ∧ (handleTelegramMessage env db ⟨some msg⟩).tr.ops.filter isBatchStateGet = [] := by
  intro env db msg cfg ch fid fsz fname ftyp htext hex hcfg hen htc hnohit hch htruthy
    hput hf1 hf2
  have hdir : isDirCommand msg = false := by rw [isDirCommand, htext]
  have hscan : (scanKeys db fid (dbList db "")).1 = none :=
    scanKeys_none db fid (dbList db "") hnohit
  have hcond : ¬(cfg.enabled = false ∨ cfg.targetChannel = "") := by
    simp [hen, htc]
  have hputn : ¬(env.putOk (env.allocate (getUploadDir db msg.chat_id) fname) = false) := by
    rw [hput]; simp
  have hfilters :
      ((((([DbOp.get webhookKey] ++ [DbOp.listPre ""] ++
          (scanKeys db fid (dbList db "")).2) ++ [DbOp.get (dirKey msg.chat_id)]) ++
          [DbOp.get uploadCfgKey]) ++
          [DbOp.put (env.allocate (getUploadDir db msg.chat_id) fname)]).filter isBatchWrite
        = [])
      ∧ ((((([DbOp.get webhookKey] ++ [DbOp.listPre ""] ++
          (scanKeys db fid (dbList db "")).2) ++ [DbOp.get (dirKey msg.chat_id)]) ++
          [DbOp.get uploadCfgKey]) ++
          [DbOp.put (env.allocate (getUploadDir db msg.chat_id) fname)]).filter
            isBatchStateGet = []) := by
    constructor
    · simp only [List.filter_append, filter_isBatchWrite_scan, List.append_nil]
      simp [isBatchWrite, List.filter, hf1, hf2]
    · have hw : strStartsWith webhookKey "telegram_batch_" = false := rfl
      have hu : strStartsWith uploadCfgKey "telegram_batch_" = false := rfl
      simp only [List.filter_append, filter_isBatchStateGet_scan, List.append_nil]
      simp [isBatchStateGet, List.filter, dirKey_not_batchState, hw, hu]
  cases hmg : msg.media_group_id with
  | none =>
    simp only [handleTelegramMessage, hdir, Bool.false_eq_true, if_false,
      handleFileMessage, hex, hcfg, if_neg hcond, hscan, hch, if_neg hputn, hmg,
      singleTail, resultSuccess]
    exact ⟨by trivial, by trivial, by trivial, hfilters.1, hfilters.2⟩
  | some gid =>
    have hgid : gid = "" := by
      rw [hmg, truthyOptStr] at htruthy
      simpa using htruthy
    subst hgid
    simp only [handleTelegramMessage, hdir, Bool.false_eq_true, if_false,
      handleFileMessage, hex, hcfg, if_neg hcond, hscan, hch, if_neg hputn, hmg,
      if_pos rfl, singleTail, resultSuccess]
    exact ⟨by trivial, by trivial, by trivial, hfilters.1, hfilters.2⟩

theorem nongrouped_bypasses_coalescer_witness :
    resultSuccess (handleTelegramMessage envW dbC7 ⟨some msgW⟩).out = true
    ∧ (handleTelegramMessage envW dbC7 ⟨some msgW⟩).tr.sends =
        [SendCall.singleSaved msgW.chat_id
          (envW.allocate (getUploadDir dbC7 msgW.chat_id) "photo_d_5.jpg") (mbCents 7)]
    ∧ (handleTelegramMessage envW dbC7 ⟨some msgW⟩).tr.scheduled = []
    ∧ (handleTelegramMessage envW dbC7 ⟨some msgW⟩).tr.ops.filter isBatchWrite = []
    ∧ (handleTelegramMessage envW dbC7 ⟨some msgW⟩).tr.ops.filter isBatchStateGet = [] :=
  nongrouped_bypasses_coalescer envW dbC7 msgW ⟨true, "ch"⟩ ⟨"ch", "tok", ""⟩ "c" 7
    "photo_d_5.jpg" "image/jpeg" rfl (by decide) rfl rfl (by decide) (by decide)
    (by decide) rfl (by decide) (by decide) (by decide)

/-! ## C9 — the shape of the handler result -/

/-- The result's `existingFileId` field, when the run returned. -/
def resultExisting : Outcome → Option String
  | .ret r => r.existingFileId
  | .thrown => none

/-- C9 counterexample: the `already_saved` outcome carries an
`existingFileId` field, which is outside the claimed result shape
`{success, reason?, fileId?, metadata?, mediaGroupId?}`. -/
theorem result_extra_field_cex :
    (handleTelegramMessage envW dbDup ⟨some msgDup⟩).out =
      .ret { success := false, reason := some "already_saved",
             existingFileId := some "old.jpg" }
    ∧ resultExisting (handleTelegramMessage envW dbDup ⟨some msgDup⟩).out ≠ none := by
  decide

theorem singleTail_shape (dbW : DB) (opsW : List DbOp) (allocs : List (String × String))
    (chatId fullId : String) (md : FileMetadata) (mg : Option String) (r : HandlerResult)
    (h : (singleTail dbW opsW allocs chatId fullId md mg).out = .ret r) :
    (r.existingFileId ≠ none → r.reason = some "already_saved" ∧ r.success = false)
    ∧ (r.error ≠ none → r.reason = some "database_error" ∧ r.success = false) := by
  cases h
  simp

theorem groupedTail_shape (env : Env) (dbW : DB) (opsW : List DbOp)
    (allocs : List (String × String)) (chatId gid fullId : String) (md : FileMetadata)
    (mg : Option String) (r : HandlerResult)
    (h : (groupedTail env dbW opsW allocs chatId gid fullId md mg).out = .ret r) :
    (r.existingFileId ≠ none → r.reason = some "already_saved" ∧ r.success = false)
    ∧ (r.error ≠ none → r.reason = some "database_error" ∧ r.success = false) := by
  simp only [groupedTail] at h
  split at h
  · cases h
  · cases h
    simp

theorem handleDir_shape (env : Env) (db : DB) (chatId : String) (parts : List String)
    (r : HandlerResult) (h : (handleDir env db chatId parts).out = .ret r) :
    (r.existingFileId ≠ none → r.reason = some "already_saved" ∧ r.success = false)
    ∧ (r.error ≠ none → r.reason = some "database_error" ∧ r.success = false) := by
  simp only [handleDir] at h
  repeat' split at h
  all_goals first
    | (cases h; simp)
    | cases h

/-- C9 as amended: every returned result fits the shape `{success, reason?,
fileId?, metadata?, mediaGroupId?, existingFileId?, error?}` where the two
extra fields occur only with their outcome: `existingFileId` only on
`already_saved` and `error` only on `database_error`, both with success
false. -/
theorem result_shape_extended :
    ∀ (env : Env) (db : DB) (u : Update) (r : HandlerResult),
      (handleTelegramMessage env db u).out = .ret r →
      (r.existingFileId ≠ none → r.reason = some "already_saved" ∧ r.success = false)
      ∧ (r.error ≠ none → r.reason = some "database_error" ∧ r.success = false) := by
  intro env db u
  rcases u with ⟨m⟩
  cases m with
  | none =>
    intro r h
    cases h
    simp
  | some msg =>
    intro r h
    simp only [handleTelegramMessage] at h
    split at h
    · exact handleDir_shape _ _ _ _ r h
    · simp only [handleFileMessage] at h
      repeat' split at h
      all_goals first
        | (cases h; simp)
        | cases h
        | exact singleTail_shape _ _ _ _ _ _ _ r h
        | exact groupedTail_shape _ _ _ _ _ _ _ _ _ r h

theorem result_shape_extended_witness :
    (({ success := false, reason := some "already_saved",
        existingFileId := some "old.jpg" } : HandlerResult).existingFileId ≠ none →
      ({ success := false, reason := some "already_saved",
         existingFileId := some "old.jpg" } : HandlerResult).reason = some "already_saved"
      ∧ ({ success := false, reason := some "already_saved",
           existingFileId := some "old.jpg" } : HandlerResult).success = false)
    ∧ (({ success := false, reason := some "already_saved",
          existingFileId := some "old.jpg" } : HandlerResult).error ≠ none →
        ({ success := false, reason := some "already_saved",
           existingFileId := some "old.jpg" } : HandlerResult).reason
          = some "database_error"
        ∧ ({ success := false, reason := some "already_saved",
             existingFileId := some "old.jpg" } : HandlerResult).success = false) :=
  result_shape_extended envW dbDup ⟨some msgDup⟩
    { success := false, reason := some "already_saved", existingFileId := some "old.jpg" }
    (by decide)

end CFImgBed
